import Mathlib

/-!
# SEAL-PYTHON-4.1.2: verification development of the binding layer

Shallow embedding of the pybind11 bindings under `src/core` and of the parts of
the underlying engine that the bindings delegate to.  Binding lambdas are
translated from the C++ source; engine behaviour that lives behind the
`seal/*.h` headers is modelled from the specification and marked as such.
-/

namespace Seal

/-! ## Fingerprints (`parms_id_type`) and their conversion to Python bytes -/

/-- Modelled from the spec: the type declaration `parms_id_type` (from
`seal/encryptionparams.h`, not among the binding sources).  The spec calls it a
256-bit digest; it is a `std::array<std::uint64_t, 4>`, here the list of its
four 64-bit words. -/
structure parms_id_type where
  w0 : Nat
  w1 : Nat
  w2 : Nat
  w3 : Nat
deriving DecidableEq, Repr

/-- Words of a fingerprint are 64-bit. -/
def parms_id_type.wf (id : parms_id_type) : Prop :=
  id.w0 < 2 ^ 64 ∧ id.w1 < 2 ^ 64 ∧ id.w2 < 2 ^ 64 ∧ id.w3 < 2 ^ 64

instance (id : parms_id_type) : Decidable id.wf := by
  unfold parms_id_type.wf; infer_instance

/-- The elements of the array, in index order. -/
def parms_id_type.words (id : parms_id_type) : List Nat :=
  [id.w0, id.w1, id.w2, id.w3]

/-- `std::array<std::uint64_t, 4>::size()`: the number of ELEMENTS. -/
def parms_id_type.size (id : parms_id_type) : Nat :=
  id.words.length

/-- Object representation of one `std::uint64_t`: eight bytes, least
significant first on a little-endian machine, most significant first
otherwise. -/
def uint64_bytes (littleEndian : Bool) (w : Nat) : List Nat :=
  let le := (List.range 8).map (fun i => (w % 2 ^ 64) / 256 ^ i % 256)
  if littleEndian then le else le.reverse

/-- `id.data()` reinterpreted as `const char*`: the bytes of the array in
memory, word after word. -/
def parms_id_type.data (littleEndian : Bool) (id : parms_id_type) : List Nat :=
  (id.words.map (uint64_bytes littleEndian)).flatten

/-- `py::bytes(const char *c, size_t n)`: the first `n` bytes at `c`. -/
def py_bytes (c : List Nat) (n : Nat) : List Nat :=
  c.take n

/-- The lambda shared by every `parms_id` accessor of the bindings:
`auto id = x.parms_id(); return py::bytes(reinterpret_cast<const char*>(id.data()), id.size());` -/
def parms_id_to_bytes (littleEndian : Bool) (id : parms_id_type) : List Nat :=
  py_bytes (id.data littleEndian) id.size

/-- The full 32-byte image of a fingerprint: what an accessor returning the
whole digest would produce. -/
def parms_id_full_bytes (littleEndian : Bool) (id : parms_id_type) : List Nat :=
  id.data littleEndian

/-! ## Data model -/

/-- The `SchemeType` enum of `module.cpp` (`scheme_type` of the engine). -/
inductive scheme_type where
  | none
  | bfv
  | ckks
  | bgv
deriving DecidableEq, Repr

/-- Error taxonomy.  `RuntimeError` is the `std::runtime_error` thrown by the
binding lambdas themselves; the others are the engine errors named by the
spec (section 7). -/
inductive Error where
  | RuntimeError
  | InvalidParameter
  | LevelMismatch
  | ScaleMismatch
  | MissingGaloisKey
  | InvalidKey
  | EncodingError
  | EndOfModulusChain
  | LoadError
deriving DecidableEq, Repr

/-- Modelled from the spec: the class `EncryptionParameters` (declared in
`seal/encryptionparams.h`): scheme tag, ring degree, ordered coefficient
moduli, plain modulus, and the cached fingerprint computed over these
fields. -/
structure EncryptionParameters where
  scheme : scheme_type
  poly_modulus_degree : Nat
  coeff_modulus : List Nat
  plain_modulus : Nat
  parms_id : parms_id_type
deriving DecidableEq, Repr

/-- Modelled from the spec: a node of the modulus chain (`SEALContext::ContextData`,
declared in `seal/context.h`): the parameters valid at that level, with their
fingerprint, and the position of the level in the chain. -/
structure ContextData where
  parms : EncryptionParameters
  chain_index : Nat
deriving DecidableEq, Repr

/-- `ContextData::parms_id()`: the fingerprint of the parameters of the level. -/
def ContextData.parms_id (cd : ContextData) : parms_id_type :=
  cd.parms.parms_id

/-- Modelled from the spec: the class `SEALContext` (declared in
`seal/context.h`): the descending chain of levels.  The head is the key level;
the levels after it are the data levels, the last one being the lowest. -/
structure SEALContext where
  key_context_data : ContextData
  data_levels : List ContextData
deriving DecidableEq, Repr

/-- All levels of the chain, from the key level down to the lowest level. -/
def SEALContext.chain (ctx : SEALContext) : List ContextData :=
  ctx.key_context_data :: ctx.data_levels

/-- Modelled from the spec: the first data level: the level after the key
level, or the key level itself when the chain has a single level. -/
def SEALContext.first_context_data (ctx : SEALContext) : ContextData :=
  ctx.data_levels.headD ctx.key_context_data

/-- Modelled from the spec: the tail of the chain. -/
def SEALContext.last_context_data (ctx : SEALContext) : ContextData :=
  ctx.chain.getLastD ctx.key_context_data

/-- `SEALContext::key_parms_id()`. -/
def SEALContext.key_parms_id (ctx : SEALContext) : parms_id_type :=
  ctx.key_context_data.parms_id

/-- `SEALContext::first_parms_id()`. -/
def SEALContext.first_parms_id (ctx : SEALContext) : parms_id_type :=
  ctx.first_context_data.parms_id

/-- `SEALContext::last_parms_id()`. -/
def SEALContext.last_parms_id (ctx : SEALContext) : parms_id_type :=
  ctx.last_context_data.parms_id

/-- Modelled from the spec: `SEALContext::get_context_data`, "a mapping lookup"
that "returns nothing if the fingerprint is not part of this chain". -/
def SEALContext.get_context_data (ctx : SEALContext) (p : parms_id_type) : Option ContextData :=
  ctx.chain.find? (fun cd => cd.parms_id = p)

/-- Modelled from the spec: the link of a level "to the next (lower) level":
the node that follows the one with fingerprint `p` in the chain. -/
def next_in_chain : List ContextData → parms_id_type → Option ContextData
  | [], _ => none
  | cd :: rest, p => if cd.parms_id = p then rest.head? else next_in_chain rest p

/-- `ContextData::next_context_data()` of the level with fingerprint `p`. -/
def SEALContext.next_context_data (ctx : SEALContext) (p : parms_id_type) : Option ContextData :=
  next_in_chain ctx.chain p

/-- Chain indices count the levels below: `n - 1, n - 2, ..., 0` along a chain
of `n` levels. -/
def chain_indices_descend : List ContextData → Bool
  | [] => true
  | cd :: rest => cd.chain_index == rest.length && chain_indices_descend rest

/-- Each level keeps the moduli of the level above it but the last one
("drops the top modulus"). -/
def chain_drops_modulus : List ContextData → Bool
  | [] => true
  | [_] => true
  | cd :: next :: rest =>
      next.parms.coeff_modulus == cd.parms.coeff_modulus.dropLast
        && chain_drops_modulus (next :: rest)

/-- Invariant of a context whose parameters were validated: the fingerprints
of the levels are pairwise distinct, chain indices descend to zero, and every
level drops the top modulus of the level above. -/
def SEALContext.wf (ctx : SEALContext) : Prop :=
  (ctx.chain.map ContextData.parms_id).Nodup
    ∧ chain_indices_descend ctx.chain = true
    ∧ chain_drops_modulus ctx.chain = true

instance (ctx : SEALContext) : Decidable ctx.wf := by
  unfold SEALContext.wf; infer_instance

/-- The bit pattern of the `double` 1.0 (IEEE-754 binary64). -/
def double_one : Nat :=
  0x3FF0000000000000

/-- The bit pattern of the `double` that equals the natural number `q`, for
`0 < q < 2 ^ 53` (where the conversion is exact): biased exponent
`1023 + log2 q`, then the bits of `q` below its leading one. -/
def double_of_nat (q : Nat) : Nat :=
  let e := ((List.range 53).filter (fun k => decide (2 ^ (k + 1) ≤ q))).length
  (1023 + e) * 2 ^ 52 + (q - 2 ^ e) * 2 ^ (52 - e)

/-- Modelled from the spec: the class `Plaintext` (declared in
`seal/plaintext.h`): coefficients, the fingerprint of the level it is tied to
(all zero when it is not), and the scale.  The scale is a `double`; the model
keeps its 64-bit pattern and leaves floating-point arithmetic to the kernel. -/
structure Plaintext where
  parms_id : parms_id_type
  scale : Nat
  data : List Nat
deriving DecidableEq, Repr

/-- Modelled from the spec: the class `Ciphertext` (declared in
`seal/ciphertext.h`): `size` polynomial components over `coeff_modulus_size`
moduli, the fingerprint locating it on the chain, the NTT-domain flag, the
scale (the 64-bit pattern of the `double`) and the correction factor. -/
structure Ciphertext where
  parms_id : parms_id_type
  is_ntt_form : Bool
  size : Nat
  poly_modulus_degree : Nat
  coeff_modulus_size : Nat
  scale : Nat
  correction_factor : Nat
  data : List Nat
deriving DecidableEq, Repr

/-! ### The `parms_id` accessors of the bindings -/

/-- `bind_ciphertext.cpp`, lines 13-16: `Ciphertext.parms_id`. -/
def Ciphertext.py_parms_id (littleEndian : Bool) (ct : Ciphertext) : List Nat :=
  parms_id_to_bytes littleEndian ct.parms_id

/-- `bind_plaintext.cpp`, lines 38-41: `Plaintext.parms_id`. -/
def Plaintext.py_parms_id (littleEndian : Bool) (pt : Plaintext) : List Nat :=
  parms_id_to_bytes littleEndian pt.parms_id

/-- `bind_encryption.cpp`, lines 53-56: `EncryptionParameters.parms_id`. -/
def EncryptionParameters.py_parms_id (littleEndian : Bool) (p : EncryptionParameters) : List Nat :=
  parms_id_to_bytes littleEndian p.parms_id

/-- `bind_context.cpp`, lines 28-31: `ContextData.parms_id`. -/
def ContextData.py_parms_id (littleEndian : Bool) (cd : ContextData) : List Nat :=
  parms_id_to_bytes littleEndian cd.parms_id

/-- `bind_context.cpp`, lines 58-61: `SEALContext.key_parms_id`. -/
def SEALContext.py_key_parms_id (littleEndian : Bool) (ctx : SEALContext) : List Nat :=
  parms_id_to_bytes littleEndian ctx.key_parms_id

/-- `bind_context.cpp`, lines 62-65: `SEALContext.first_parms_id`. -/
def SEALContext.py_first_parms_id (littleEndian : Bool) (ctx : SEALContext) : List Nat :=
  parms_id_to_bytes littleEndian ctx.first_parms_id

/-- `bind_context.cpp`, lines 66-69: `SEALContext.last_parms_id`. -/
def SEALContext.py_last_parms_id (littleEndian : Bool) (ctx : SEALContext) : List Nat :=
  parms_id_to_bytes littleEndian ctx.last_parms_id

/-! ## Keys -/

/-- Modelled from the spec: the class `RelinKeys` (declared in
`seal/relinkeys.h`): key-switching keys at the key level. -/
structure RelinKeys where
  parms_id : parms_id_type
  data : List (List Nat)
deriving DecidableEq, Repr

/-- Modelled from the spec: the class `GaloisKeys` (declared in
`seal/galoiskeys.h`): key-switching keys at the key level, indexed by the
Galois element (automorphism exponent) they serve. -/
structure GaloisKeys where
  parms_id : parms_id_type
  keys : List (Nat × List Nat)
deriving DecidableEq, Repr

/-- Whether the collection holds a key for the Galois element `g`. -/
def GaloisKeys.has_key (gk : GaloisKeys) (g : Nat) : Bool :=
  gk.keys.any (fun kv => kv.1 == g)

/-! ## Evaluator -/

/-- Modelled from the spec: the polynomial-ring arithmetic beneath the
evaluator (spec 4.2) and the operator cores for which the spec gives no
algorithm.  Following the design note of spec section 9 each operator is a
"single core algorithm taking explicit input/output parameters": a function
from the operand values to the result value or an error.  These are parameters
of the model. -/
structure Kernel where
  add : Ciphertext → Ciphertext → Except Error Ciphertext
  sub : Ciphertext → Ciphertext → Except Error Ciphertext
  negate : Ciphertext → Except Error Ciphertext
  multiply : Ciphertext → Ciphertext → Except Error Ciphertext
  square : Ciphertext → Except Error Ciphertext
  relinearize : Ciphertext → RelinKeys → Except Error Ciphertext
  exponentiate : Ciphertext → Nat → RelinKeys → Except Error Ciphertext
  rotate_rows : Ciphertext → Int → GaloisKeys → Except Error Ciphertext
  rotate_columns : Ciphertext → GaloisKeys → Except Error Ciphertext
  rotate_vector : Ciphertext → Int → GaloisKeys → Except Error Ciphertext
  apply_galois : Ciphertext → Nat → GaloisKeys → Except Error Ciphertext
  complex_conjugate : Ciphertext → GaloisKeys → Except Error Ciphertext
  transform_to_ntt : Ciphertext → Except Error Ciphertext
  transform_from_ntt : Ciphertext → Except Error Ciphertext
  add_plain : Ciphertext → Plaintext → Except Error Ciphertext
  sub_plain : Ciphertext → Plaintext → Except Error Ciphertext
  multiply_plain : Ciphertext → Plaintext → Except Error Ciphertext
  /-- Coefficient data after dropping the top modulus (base conversion). -/
  switch_data : EncryptionParameters → EncryptionParameters → List Nat → List Nat
  /-- Coefficient data after dividing out the top modulus. -/
  rescale_data : EncryptionParameters → EncryptionParameters → List Nat → List Nat
  /-- The tolerance policy of rescaling: whether a scale "closely matches" the
  modulus that is divided out. -/
  scale_matches : Nat → Nat → Bool
  /-- Floating-point division of a scale by a modulus. -/
  scale_div : Nat → Nat → Nat

/-- Modelled from the spec: the class `Evaluator` (declared in
`seal/evaluator.h`), bound to a context. -/
structure Evaluator where
  context : SEALContext
  kernel : Kernel

/-- Modelled from the spec: one modulus switch, from level `cur` to the level
`next` right below it: "drops the top modulus without touching scale". -/
def Evaluator.switch_step (e : Evaluator) (cur next : ContextData) (a : Ciphertext) : Ciphertext :=
  { a with
    parms_id := next.parms_id
    coeff_modulus_size := next.parms.coeff_modulus.length
    data := e.kernel.switch_data cur.parms next.parms a.data }

/-- Modelled from the spec: one rescaling step, from level `cur` to the level
`next` right below it: "divides out the top modulus and proportionally reduces
scale", "defined only when current scale closely matches that modulus ... else
`ScaleMismatch`". -/
def Evaluator.rescale_step (e : Evaluator) (cur next : ContextData) (a : Ciphertext) :
    Except Error Ciphertext :=
  let q_top := cur.parms.coeff_modulus.getLastD 1
  if e.kernel.scale_matches a.scale q_top then
    .ok { a with
          parms_id := next.parms_id
          coeff_modulus_size := next.parms.coeff_modulus.length
          scale := e.kernel.scale_div a.scale q_top
          data := e.kernel.rescale_data cur.parms next.parms a.data }
  else .error .ScaleMismatch

/-- The part of a chain that starts at the level with fingerprint `p`. -/
def levels_from : List ContextData → parms_id_type → Option (ContextData × List ContextData)
  | [], _ => none
  | cd :: rest, p => if cd.parms_id = p then some (cd, rest) else levels_from rest p

/-- Modelled from the spec: core of `mod_switch_to_next`: the operand must be
on the chain; "at the lowest level, fails with `EndOfModulusChain`". -/
def Evaluator.mod_switch_to_next_core (e : Evaluator) (a : Ciphertext) : Except Error Ciphertext :=
  match levels_from e.context.chain a.parms_id with
  | none => .error .InvalidParameter
  | some (_, []) => .error .EndOfModulusChain
  | some (cur, next :: _) => .ok (e.switch_step cur next a)

/-- Switch down level by level until the level with fingerprint `target`. -/
def Evaluator.switch_down (e : Evaluator) (target : parms_id_type) :
    ContextData → List ContextData → Ciphertext → Except Error Ciphertext
  | cur, below, a =>
    if cur.parms_id = target then .ok a
    else match below with
      | [] => .error .EndOfModulusChain
      | next :: rest => e.switch_down target next rest (e.switch_step cur next a)

/-- Modelled from the spec: core of `mod_switch_to`: modulus switching is only
ever downwards, so the target is reached by repeated switches to the next
level; a target that is not at or below the operand's level runs off the end
of the chain. -/
def Evaluator.mod_switch_to_core (e : Evaluator) (a : Ciphertext) (target : parms_id_type) :
    Except Error Ciphertext :=
  match levels_from e.context.chain a.parms_id with
  | none => .error .InvalidParameter
  | some (cur, below) => e.switch_down target cur below a

/-- Modelled from the spec: core of `rescale_to_next` (CKKS): one rescaling
step; "applying at the lowest level fails with `EndOfModulusChain`". -/
def Evaluator.rescale_to_next_core (e : Evaluator) (a : Ciphertext) : Except Error Ciphertext :=
  match levels_from e.context.chain a.parms_id with
  | none => .error .InvalidParameter
  | some (_, []) => .error .EndOfModulusChain
  | some (cur, next :: _) =>
    if cur.parms.scheme = scheme_type.ckks then e.rescale_step cur next a
    else .error .InvalidParameter

/-- Rescale level by level until the level with fingerprint `target`. -/
def Evaluator.rescale_down (e : Evaluator) (target : parms_id_type) :
    ContextData → List ContextData → Ciphertext → Except Error Ciphertext
  | cur, below, a =>
    if cur.parms_id = target then .ok a
    else match below with
      | [] => .error .EndOfModulusChain
      | next :: rest =>
        match e.rescale_step cur next a with
        | .error err => .error err
        | .ok a1 => e.rescale_down target next rest a1

/-- Modelled from the spec: core of `rescale_to` (CKKS): repeated rescaling
down to the level with fingerprint `target`. -/
def Evaluator.rescale_to_core (e : Evaluator) (a : Ciphertext) (target : parms_id_type) :
    Except Error Ciphertext :=
  match levels_from e.context.chain a.parms_id with
  | none => .error .InvalidParameter
  | some (cur, below) =>
    if cur.parms.scheme = scheme_type.ckks then e.rescale_down target cur below a
    else .error .InvalidParameter

/-! ### Python objects

The bindings receive references to Python-owned `Ciphertext` objects; two
arguments of one call may be the same object.  The store maps references to
the current value of the object. -/

/-- Reference to a Python `Ciphertext` object. -/
abbrev Ref := Nat

/-- The values of the `Ciphertext` objects. -/
abbrev Store := Ref → Ciphertext

/-- Assignment to the object behind a reference. -/
def Store.write (h : Store) (r : Ref) (v : Ciphertext) : Store :=
  fun x => if x = r then v else h x

/-- Modelled from the spec (section 9): an operator method of the engine with
an explicit destination: the core algorithm is run on the operand values and
its result is assigned to the destination object. -/
def run_into (h : Store) (result : Except Error Ciphertext) (destination : Ref) :
    Except Error Store :=
  match result with
  | .error err => .error err
  | .ok v => .ok (h.write destination v)

/-! Engine methods with explicit destination: modelled from the spec (section
9), each runs its core algorithm on the values of the operands and assigns the
result to the destination; when the core fails no object is changed. -/

/-- Modelled from the spec: engine `Evaluator::add(encrypted1, encrypted2, destination)`. -/
def Evaluator.add (e : Evaluator) (h : Store) (a b out : Ref) : Except Error Store :=
  run_into h (e.kernel.add (h a) (h b)) out
/-- Modelled from the spec: engine `Evaluator::sub(encrypted1, encrypted2, destination)`. -/
def Evaluator.sub (e : Evaluator) (h : Store) (a b out : Ref) : Except Error Store :=
  run_into h (e.kernel.sub (h a) (h b)) out
/-- Modelled from the spec: engine `Evaluator::negate(encrypted, destination)`. -/
def Evaluator.negate (e : Evaluator) (h : Store) (a out : Ref) : Except Error Store :=
  run_into h (e.kernel.negate (h a)) out
/-- Modelled from the spec: engine `Evaluator::multiply(encrypted1, encrypted2, destination)`. -/
def Evaluator.multiply (e : Evaluator) (h : Store) (a b out : Ref) : Except Error Store :=
  run_into h (e.kernel.multiply (h a) (h b)) out
/-- Modelled from the spec: engine `Evaluator::square(encrypted, destination)`. -/
def Evaluator.square (e : Evaluator) (h : Store) (a out : Ref) : Except Error Store :=
  run_into h (e.kernel.square (h a)) out
/-- Modelled from the spec: engine `Evaluator::relinearize(encrypted, relin_keys, destination)`. -/
def Evaluator.relinearize (e : Evaluator) (h : Store) (a : Ref) (rk : RelinKeys) (out : Ref) :
    Except Error Store :=
  run_into h (e.kernel.relinearize (h a) rk) out
/-- Modelled from the spec: engine `Evaluator::exponentiate(encrypted, exponent, relin_keys, destination)`. -/
def Evaluator.exponentiate (e : Evaluator) (h : Store) (a : Ref) (exponent : Nat)
    (rk : RelinKeys) (out : Ref) : Except Error Store :=
  run_into h (e.kernel.exponentiate (h a) exponent rk) out
/-- Modelled from the spec: engine `Evaluator::mod_switch_to_next(encrypted, destination)`. -/
def Evaluator.mod_switch_to_next (e : Evaluator) (h : Store) (a out : Ref) : Except Error Store :=
  run_into h (e.mod_switch_to_next_core (h a)) out
/-- Modelled from the spec: engine `Evaluator::mod_switch_to(encrypted, parms_id, destination)`. -/
def Evaluator.mod_switch_to (e : Evaluator) (h : Store) (a : Ref) (p : parms_id_type)
    (out : Ref) : Except Error Store :=
  run_into h (e.mod_switch_to_core (h a) p) out
/-- Modelled from the spec: engine `Evaluator::rescale_to_next(encrypted, destination)`. -/
def Evaluator.rescale_to_next (e : Evaluator) (h : Store) (a out : Ref) : Except Error Store :=
  run_into h (e.rescale_to_next_core (h a)) out
/-- Modelled from the spec: engine `Evaluator::rescale_to(encrypted, parms_id, destination)`. -/
def Evaluator.rescale_to (e : Evaluator) (h : Store) (a : Ref) (p : parms_id_type)
    (out : Ref) : Except Error Store :=
  run_into h (e.rescale_to_core (h a) p) out
/-- Modelled from the spec: engine `Evaluator::rotate_rows(encrypted, steps, galois_keys, destination)`. -/
def Evaluator.rotate_rows (e : Evaluator) (h : Store) (a : Ref) (steps : Int)
    (gk : GaloisKeys) (out : Ref) : Except Error Store :=
  run_into h (e.kernel.rotate_rows (h a) steps gk) out
/-- Modelled from the spec: engine `Evaluator::rotate_columns(encrypted, galois_keys, destination)`. -/
def Evaluator.rotate_columns (e : Evaluator) (h : Store) (a : Ref) (gk : GaloisKeys)
    (out : Ref) : Except Error Store :=
  run_into h (e.kernel.rotate_columns (h a) gk) out
/-- Modelled from the spec: engine `Evaluator::rotate_vector(encrypted, steps, galois_keys, destination)`. -/
def Evaluator.rotate_vector (e : Evaluator) (h : Store) (a : Ref) (steps : Int)
    (gk : GaloisKeys) (out : Ref) : Except Error Store :=
  run_into h (e.kernel.rotate_vector (h a) steps gk) out
/-- Modelled from the spec: engine `Evaluator::apply_galois(encrypted, galois_elt, galois_keys, destination)`. -/
def Evaluator.apply_galois (e : Evaluator) (h : Store) (a : Ref) (galois_elt : Nat)
    (gk : GaloisKeys) (out : Ref) : Except Error Store :=
  run_into h (e.kernel.apply_galois (h a) galois_elt gk) out
/-- Modelled from the spec: engine `Evaluator::complex_conjugate(encrypted, galois_keys, destination)`. -/
def Evaluator.complex_conjugate (e : Evaluator) (h : Store) (a : Ref) (gk : GaloisKeys)
    (out : Ref) : Except Error Store :=
  run_into h (e.kernel.complex_conjugate (h a) gk) out
/-- Modelled from the spec: engine `Evaluator::transform_to_ntt(encrypted, destination_ntt)`. -/
def Evaluator.transform_to_ntt (e : Evaluator) (h : Store) (a out : Ref) : Except Error Store :=
  run_into h (e.kernel.transform_to_ntt (h a)) out
/-- Modelled from the spec: engine `Evaluator::transform_from_ntt(encrypted_ntt, destination)`. -/
def Evaluator.transform_from_ntt (e : Evaluator) (h : Store) (a out : Ref) : Except Error Store :=
  run_into h (e.kernel.transform_from_ntt (h a)) out
/-- Modelled from the spec: engine `Evaluator::add_plain(encrypted, plain, destination)`. -/
def Evaluator.add_plain (e : Evaluator) (h : Store) (a : Ref) (b : Plaintext) (out : Ref) :
    Except Error Store :=
  run_into h (e.kernel.add_plain (h a) b) out
/-- Modelled from the spec: engine `Evaluator::sub_plain(encrypted, plain, destination)`. -/
def Evaluator.sub_plain (e : Evaluator) (h : Store) (a : Ref) (b : Plaintext) (out : Ref) :
    Except Error Store :=
  run_into h (e.kernel.sub_plain (h a) b) out
/-- Modelled from the spec: engine `Evaluator::multiply_plain(encrypted, plain, destination)`. -/
def Evaluator.multiply_plain (e : Evaluator) (h : Store) (a : Ref) (b : Plaintext) (out : Ref) :
    Except Error Store :=
  run_into h (e.kernel.multiply_plain (h a) b) out

/-! Engine methods in place: modelled from the spec (section 9), "in-place is a
thin wrapper calling it with output aliasing input". -/
/-- Modelled from the spec: engine `Evaluator::add_inplace`. -/
def Evaluator.add_inplace (e : Evaluator) (h : Store) (a : Ref) (b : Ref) :
    Except Error Store :=
  e.add h a b a
/-- Modelled from the spec: engine `Evaluator::sub_inplace`. -/
def Evaluator.sub_inplace (e : Evaluator) (h : Store) (a : Ref) (b : Ref) :
    Except Error Store :=
  e.sub h a b a
/-- Modelled from the spec: engine `Evaluator::negate_inplace`. -/
def Evaluator.negate_inplace (e : Evaluator) (h : Store) (a : Ref) :
    Except Error Store :=
  e.negate h a a
/-- Modelled from the spec: engine `Evaluator::multiply_inplace`. -/
def Evaluator.multiply_inplace (e : Evaluator) (h : Store) (a : Ref) (b : Ref) :
    Except Error Store :=
  e.multiply h a b a
/-- Modelled from the spec: engine `Evaluator::square_inplace`. -/
def Evaluator.square_inplace (e : Evaluator) (h : Store) (a : Ref) :
    Except Error Store :=
  e.square h a a
/-- Modelled from the spec: engine `Evaluator::relinearize_inplace`. -/
def Evaluator.relinearize_inplace (e : Evaluator) (h : Store) (a : Ref) (rk : RelinKeys) :
    Except Error Store :=
  e.relinearize h a rk a
/-- Modelled from the spec: engine `Evaluator::exponentiate_inplace`. -/
def Evaluator.exponentiate_inplace (e : Evaluator) (h : Store) (a : Ref) (exponent : Nat) (rk : RelinKeys) :
    Except Error Store :=
  e.exponentiate h a exponent rk a
/-- Modelled from the spec: engine `Evaluator::mod_switch_to_next_inplace`. -/
def Evaluator.mod_switch_to_next_inplace (e : Evaluator) (h : Store) (a : Ref) :
    Except Error Store :=
  e.mod_switch_to_next h a a
/-- Modelled from the spec: engine `Evaluator::mod_switch_to_inplace`. -/
def Evaluator.mod_switch_to_inplace (e : Evaluator) (h : Store) (a : Ref) (p : parms_id_type) :
    Except Error Store :=
  e.mod_switch_to h a p a
/-- Modelled from the spec: engine `Evaluator::rescale_to_next_inplace`. -/
def Evaluator.rescale_to_next_inplace (e : Evaluator) (h : Store) (a : Ref) :
    Except Error Store :=
  e.rescale_to_next h a a
/-- Modelled from the spec: engine `Evaluator::rescale_to_inplace`. -/
def Evaluator.rescale_to_inplace (e : Evaluator) (h : Store) (a : Ref) (p : parms_id_type) :
    Except Error Store :=
  e.rescale_to h a p a
/-- Modelled from the spec: engine `Evaluator::rotate_rows_inplace`. -/
def Evaluator.rotate_rows_inplace (e : Evaluator) (h : Store) (a : Ref) (steps : Int) (gk : GaloisKeys) :
    Except Error Store :=
  e.rotate_rows h a steps gk a
/-- Modelled from the spec: engine `Evaluator::rotate_columns_inplace`. -/
def Evaluator.rotate_columns_inplace (e : Evaluator) (h : Store) (a : Ref) (gk : GaloisKeys) :
    Except Error Store :=
  e.rotate_columns h a gk a
/-- Modelled from the spec: engine `Evaluator::rotate_vector_inplace`. -/
def Evaluator.rotate_vector_inplace (e : Evaluator) (h : Store) (a : Ref) (steps : Int) (gk : GaloisKeys) :
    Except Error Store :=
  e.rotate_vector h a steps gk a
/-- Modelled from the spec: engine `Evaluator::apply_galois_inplace`. -/
def Evaluator.apply_galois_inplace (e : Evaluator) (h : Store) (a : Ref) (galois_elt : Nat) (gk : GaloisKeys) :
    Except Error Store :=
  e.apply_galois h a galois_elt gk a
/-- Modelled from the spec: engine `Evaluator::complex_conjugate_inplace`. -/
def Evaluator.complex_conjugate_inplace (e : Evaluator) (h : Store) (a : Ref) (gk : GaloisKeys) :
    Except Error Store :=
  e.complex_conjugate h a gk a
/-- Modelled from the spec: engine `Evaluator::transform_to_ntt_inplace`. -/
def Evaluator.transform_to_ntt_inplace (e : Evaluator) (h : Store) (a : Ref) :
    Except Error Store :=
  e.transform_to_ntt h a a
/-- Modelled from the spec: engine `Evaluator::transform_from_ntt_inplace`. -/
def Evaluator.transform_from_ntt_inplace (e : Evaluator) (h : Store) (a : Ref) :
    Except Error Store :=
  e.transform_from_ntt h a a
/-- Modelled from the spec: engine `Evaluator::add_plain_inplace`. -/
def Evaluator.add_plain_inplace (e : Evaluator) (h : Store) (a : Ref) (b : Plaintext) :
    Except Error Store :=
  e.add_plain h a b a
/-- Modelled from the spec: engine `Evaluator::sub_plain_inplace`. -/
def Evaluator.sub_plain_inplace (e : Evaluator) (h : Store) (a : Ref) (b : Plaintext) :
    Except Error Store :=
  e.sub_plain h a b a
/-- Modelled from the spec: engine `Evaluator::multiply_plain_inplace`. -/
def Evaluator.multiply_plain_inplace (e : Evaluator) (h : Store) (a : Ref) (b : Plaintext) :
    Except Error Store :=
  e.multiply_plain h a b a

/-! ### The bindings of `bind_evaluator.cpp`

Each definition is the lambda bound under the Python name after `py_`; all of
them return `None`. -/
/-- Line 13: `add` calls `e.add(a, ..., out)`. -/
def Evaluator.py_add (e : Evaluator) (h : Store) (a : Ref) (b : Ref) (out : Ref) :
    Except Error Store :=
  e.add h a b out
/-- Line 14: `add_inplace` calls `e.add_inplace(a, ...)`. -/
def Evaluator.py_add_inplace (e : Evaluator) (h : Store) (a : Ref) (b : Ref) :
    Except Error Store :=
  e.add_inplace h a b
/-- Line 16: `add_plain` calls `e.add_plain_inplace(a, ...)`. -/
def Evaluator.py_add_plain (e : Evaluator) (h : Store) (a : Ref) (b : Plaintext) :
    Except Error Store :=
  e.add_plain_inplace h a b
/-- Line 17: `add_plain_out` calls `e.add_plain(a, ..., out)`. -/
def Evaluator.py_add_plain_out (e : Evaluator) (h : Store) (a : Ref) (b : Plaintext) (out : Ref) :
    Except Error Store :=
  e.add_plain h a b out
/-- Line 20: `sub` calls `e.sub(a, ..., out)`. -/
def Evaluator.py_sub (e : Evaluator) (h : Store) (a : Ref) (b : Ref) (out : Ref) :
    Except Error Store :=
  e.sub h a b out
/-- Line 21: `sub_inplace` calls `e.sub_inplace(a, ...)`. -/
def Evaluator.py_sub_inplace (e : Evaluator) (h : Store) (a : Ref) (b : Ref) :
    Except Error Store :=
  e.sub_inplace h a b
/-- Line 22: `sub_plain` calls `e.sub_plain_inplace(a, ...)`. -/
def Evaluator.py_sub_plain (e : Evaluator) (h : Store) (a : Ref) (b : Plaintext) :
    Except Error Store :=
  e.sub_plain_inplace h a b
/-- Line 23: `sub_plain_out` calls `e.sub_plain(a, ..., out)`. -/
def Evaluator.py_sub_plain_out (e : Evaluator) (h : Store) (a : Ref) (b : Plaintext) (out : Ref) :
    Except Error Store :=
  e.sub_plain h a b out
/-- Line 26: `negate` calls `e.negate(a, ..., out)`. -/
def Evaluator.py_negate (e : Evaluator) (h : Store) (a : Ref) (out : Ref) :
    Except Error Store :=
  e.negate h a out
/-- Line 27: `negate_inplace` calls `e.negate_inplace(a, ...)`. -/
def Evaluator.py_negate_inplace (e : Evaluator) (h : Store) (a : Ref) :
    Except Error Store :=
  e.negate_inplace h a
/-- Line 30: `multiply` calls `e.multiply(a, ..., out)`. -/
def Evaluator.py_multiply (e : Evaluator) (h : Store) (a : Ref) (b : Ref) (out : Ref) :
    Except Error Store :=
  e.multiply h a b out
/-- Line 31: `multiply_inplace` calls `e.multiply_inplace(a, ...)`. -/
def Evaluator.py_multiply_inplace (e : Evaluator) (h : Store) (a : Ref) (b : Ref) :
    Except Error Store :=
  e.multiply_inplace h a b
/-- Line 33: `multiply_plain` calls `e.multiply_plain_inplace(a, ...)`. -/
def Evaluator.py_multiply_plain (e : Evaluator) (h : Store) (a : Ref) (b : Plaintext) :
    Except Error Store :=
  e.multiply_plain_inplace h a b
/-- Line 34: `multiply_plain_out` calls `e.multiply_plain(a, ..., out)`. -/
def Evaluator.py_multiply_plain_out (e : Evaluator) (h : Store) (a : Ref) (b : Plaintext) (out : Ref) :
    Except Error Store :=
  e.multiply_plain h a b out
/-- Line 35: `square` calls `e.square(a, ..., out)`. -/
def Evaluator.py_square (e : Evaluator) (h : Store) (a : Ref) (out : Ref) :
    Except Error Store :=
  e.square h a out
/-- Line 36: `square_inplace` calls `e.square_inplace(a, ...)`. -/
def Evaluator.py_square_inplace (e : Evaluator) (h : Store) (a : Ref) :
    Except Error Store :=
  e.square_inplace h a
/-- Line 39: `relinearize` calls `e.relinearize(a, ..., out)`. -/
def Evaluator.py_relinearize (e : Evaluator) (h : Store) (a : Ref) (rk : RelinKeys) (out : Ref) :
    Except Error Store :=
  e.relinearize h a rk out
/-- Line 40: `relinearize_inplace` calls `e.relinearize_inplace(a, ...)`. -/
def Evaluator.py_relinearize_inplace (e : Evaluator) (h : Store) (a : Ref) (rk : RelinKeys) :
    Except Error Store :=
  e.relinearize_inplace h a rk
/-- Line 43: `exponentiate` calls `e.exponentiate(a, ..., out)`. -/
def Evaluator.py_exponentiate (e : Evaluator) (h : Store) (a : Ref) (exponent : Nat) (rk : RelinKeys) (out : Ref) :
    Except Error Store :=
  e.exponentiate h a exponent rk out
/-- Line 44: `exponentiate_inplace` calls `e.exponentiate_inplace(a, ...)`. -/
def Evaluator.py_exponentiate_inplace (e : Evaluator) (h : Store) (a : Ref) (exponent : Nat) (rk : RelinKeys) :
    Except Error Store :=
  e.exponentiate_inplace h a exponent rk
/-- Line 47: `mod_switch_to_next` calls `e.mod_switch_to_next(a, ..., out)`. -/
def Evaluator.py_mod_switch_to_next (e : Evaluator) (h : Store) (a : Ref) (out : Ref) :
    Except Error Store :=
  e.mod_switch_to_next h a out
/-- Line 48: `mod_switch_to_next_inplace` calls `e.mod_switch_to_next_inplace(a, ...)`. -/
def Evaluator.py_mod_switch_to_next_inplace (e : Evaluator) (h : Store) (a : Ref) :
    Except Error Store :=
  e.mod_switch_to_next_inplace h a
/-- Line 49: `mod_switch_to` calls `e.mod_switch_to(a, ..., out)`. -/
def Evaluator.py_mod_switch_to (e : Evaluator) (h : Store) (a : Ref) (p : parms_id_type) (out : Ref) :
    Except Error Store :=
  e.mod_switch_to h a p out
/-- Line 50: `mod_switch_to_inplace` calls `e.mod_switch_to_inplace(a, ...)`. -/
def Evaluator.py_mod_switch_to_inplace (e : Evaluator) (h : Store) (a : Ref) (p : parms_id_type) :
    Except Error Store :=
  e.mod_switch_to_inplace h a p
/-- Line 55: `rescale_to_next` calls `e.rescale_to_next_inplace(a, ...)`. -/
def Evaluator.py_rescale_to_next (e : Evaluator) (h : Store) (a : Ref) :
    Except Error Store :=
  e.rescale_to_next_inplace h a
/-- Line 56: `rescale_to` calls `e.rescale_to_inplace(a, ...)`. -/
def Evaluator.py_rescale_to (e : Evaluator) (h : Store) (a : Ref) (p : parms_id_type) :
    Except Error Store :=
  e.rescale_to_inplace h a p
/-- Line 59: `rotate_rows` calls `e.rotate_rows(a, ..., out)`. -/
def Evaluator.py_rotate_rows (e : Evaluator) (h : Store) (a : Ref) (steps : Int) (gk : GaloisKeys) (out : Ref) :
    Except Error Store :=
  e.rotate_rows h a steps gk out
/-- Line 60: `rotate_rows_inplace` calls `e.rotate_rows_inplace(a, ...)`. -/
def Evaluator.py_rotate_rows_inplace (e : Evaluator) (h : Store) (a : Ref) (steps : Int) (gk : GaloisKeys) :
    Except Error Store :=
  e.rotate_rows_inplace h a steps gk
/-- Line 61: `rotate_columns` calls `e.rotate_columns(a, ..., out)`. -/
def Evaluator.py_rotate_columns (e : Evaluator) (h : Store) (a : Ref) (gk : GaloisKeys) (out : Ref) :
    Except Error Store :=
  e.rotate_columns h a gk out
/-- Line 62: `rotate_columns_inplace` calls `e.rotate_columns_inplace(a, ...)`. -/
def Evaluator.py_rotate_columns_inplace (e : Evaluator) (h : Store) (a : Ref) (gk : GaloisKeys) :
    Except Error Store :=
  e.rotate_columns_inplace h a gk
/-- Line 63: `rotate_vector` calls `e.rotate_vector(a, ..., out)`. -/
def Evaluator.py_rotate_vector (e : Evaluator) (h : Store) (a : Ref) (steps : Int) (gk : GaloisKeys) (out : Ref) :
    Except Error Store :=
  e.rotate_vector h a steps gk out
/-- Line 64: `rotate_vector_inplace` calls `e.rotate_vector_inplace(a, ...)`. -/
def Evaluator.py_rotate_vector_inplace (e : Evaluator) (h : Store) (a : Ref) (steps : Int) (gk : GaloisKeys) :
    Except Error Store :=
  e.rotate_vector_inplace h a steps gk
/-- Line 65: `apply_galois` calls `e.apply_galois(a, ..., out)`. -/
def Evaluator.py_apply_galois (e : Evaluator) (h : Store) (a : Ref) (galois_elt : Nat) (gk : GaloisKeys) (out : Ref) :
    Except Error Store :=
  e.apply_galois h a galois_elt gk out
/-- Line 66: `apply_galois_inplace` calls `e.apply_galois_inplace(a, ...)`. -/
def Evaluator.py_apply_galois_inplace (e : Evaluator) (h : Store) (a : Ref) (galois_elt : Nat) (gk : GaloisKeys) :
    Except Error Store :=
  e.apply_galois_inplace h a galois_elt gk
/-- Line 69: `complex_conjugate` calls `e.complex_conjugate(a, ..., out)`. -/
def Evaluator.py_complex_conjugate (e : Evaluator) (h : Store) (a : Ref) (gk : GaloisKeys) (out : Ref) :
    Except Error Store :=
  e.complex_conjugate h a gk out
/-- Line 70: `complex_conjugate_inplace` calls `e.complex_conjugate_inplace(a, ...)`. -/
def Evaluator.py_complex_conjugate_inplace (e : Evaluator) (h : Store) (a : Ref) (gk : GaloisKeys) :
    Except Error Store :=
  e.complex_conjugate_inplace h a gk
/-- Line 73: `multiply_plain_inplace` calls `e.multiply_plain_inplace(a, ...)`. -/
def Evaluator.py_multiply_plain_inplace (e : Evaluator) (h : Store) (a : Ref) (b : Plaintext) :
    Except Error Store :=
  e.multiply_plain_inplace h a b
/-- Line 74: `add_plain_inplace` calls `e.add_plain_inplace(a, ...)`. -/
def Evaluator.py_add_plain_inplace (e : Evaluator) (h : Store) (a : Ref) (b : Plaintext) :
    Except Error Store :=
  e.add_plain_inplace h a b
/-- Line 75: `sub_plain_inplace` calls `e.sub_plain_inplace(a, ...)`. -/
def Evaluator.py_sub_plain_inplace (e : Evaluator) (h : Store) (a : Ref) (b : Plaintext) :
    Except Error Store :=
  e.sub_plain_inplace h a b
/-- Line 78: `transform_to_ntt_inplace` calls `e.transform_to_ntt_inplace(a, ...)`. -/
def Evaluator.py_transform_to_ntt_inplace (e : Evaluator) (h : Store) (a : Ref) :
    Except Error Store :=
  e.transform_to_ntt_inplace h a
/-- Line 79: `transform_from_ntt_inplace` calls `e.transform_from_ntt_inplace(a, ...)`. -/
def Evaluator.py_transform_from_ntt_inplace (e : Evaluator) (h : Store) (a : Ref) :
    Except Error Store :=
  e.transform_from_ntt_inplace h a
/-- Line 80: `transform_to_ntt` calls `e.transform_to_ntt(a, ..., out)`. -/
def Evaluator.py_transform_to_ntt (e : Evaluator) (h : Store) (a : Ref) (out : Ref) :
    Except Error Store :=
  e.transform_to_ntt h a out
/-- Line 81: `transform_from_ntt` calls `e.transform_from_ntt(a, ..., out)`. -/
def Evaluator.py_transform_from_ntt (e : Evaluator) (h : Store) (a : Ref) (out : Ref) :
    Except Error Store :=
  e.transform_from_ntt h a out

/-- The value of the object behind `r` after a call: the error when the call
raised, the stored value otherwise. -/
def value_after (result : Except Error Store) (r : Ref) : Except Error Ciphertext :=
  match result with
  | .error err => .error err
  | .ok h => .ok (h r)

/-- Frame condition of a call: when it succeeds, every object other than
`out` has the value it had before. -/
def unchanged_except (h : Store) (result : Except Error Store) (out : Ref) : Prop :=
  match result with
  | .error _ => True
  | .ok h1 => ∀ x, x ≠ out → h1 x = h x

/-! ### A small context and kernel for worked examples -/

/-- Parameters of a CKKS chain of ring degree 4 over the primes 17, 97, 113
(each congruent to 1 modulo 8), at the level that keeps `moduli`. -/
def example_parms (moduli : List Nat) (tag : Nat) : EncryptionParameters :=
  { scheme := scheme_type.ckks, poly_modulus_degree := 4, coeff_modulus := moduli,
    plain_modulus := 0, parms_id := ⟨tag, 0, 0, 0⟩ }

/-- A chain of three levels: key level over `17, 97, 113`, first data level
over `17, 97`, lowest level over `17`. -/
def example_context : SEALContext :=
  { key_context_data := { parms := example_parms [17, 97, 113] 3, chain_index := 2 }
    data_levels := [{ parms := example_parms [17, 97] 2, chain_index := 1 },
                    { parms := example_parms [17] 1, chain_index := 0 }] }

/-- A kernel without ring arithmetic: every arithmetic operator is rejected,
level changes keep the coefficient data as it is, a scale matches a modulus
only when it is exactly that modulus as a `double`, and dividing a scale by
the modulus it matches gives 1.0. -/
def example_kernel : Kernel :=
  { add := fun _ _ => .error .InvalidParameter
    sub := fun _ _ => .error .InvalidParameter
    negate := fun _ => .error .InvalidParameter
    multiply := fun _ _ => .error .InvalidParameter
    square := fun _ => .error .InvalidParameter
    relinearize := fun _ _ => .error .InvalidParameter
    exponentiate := fun _ _ _ => .error .InvalidParameter
    rotate_rows := fun _ _ _ => .error .InvalidParameter
    rotate_columns := fun _ _ => .error .InvalidParameter
    rotate_vector := fun _ _ _ => .error .InvalidParameter
    apply_galois := fun _ _ _ => .error .InvalidParameter
    complex_conjugate := fun _ _ => .error .InvalidParameter
    transform_to_ntt := fun _ => .error .InvalidParameter
    transform_from_ntt := fun _ => .error .InvalidParameter
    add_plain := fun _ _ => .error .InvalidParameter
    sub_plain := fun _ _ => .error .InvalidParameter
    multiply_plain := fun _ _ => .error .InvalidParameter
    switch_data := fun _ _ d => d
    rescale_data := fun _ _ d => d
    scale_matches := fun s q => s == double_of_nat q
    scale_div := fun s q => if s == double_of_nat q then double_one else s }

/-- The evaluator of the example context. -/
def example_evaluator : Evaluator :=
  { context := example_context, kernel := example_kernel }

/-- A ciphertext at the first data level of the example context, with scale
97, the top modulus of that level. -/
def example_ciphertext : Ciphertext :=
  { parms_id := ⟨2, 0, 0, 0⟩, is_ntt_form := true, size := 2, poly_modulus_degree := 4,
    coeff_modulus_size := 2, scale := double_of_nat 97, correction_factor := 1, data := [] }

/-! ### Sequences of level-changing operations -/

/-- The operators that change the level of a ciphertext. -/
inductive LevelOp where
  | mod_switch_to_next
  | mod_switch_to (target : parms_id_type)
  | rescale_to_next
  | rescale_to (target : parms_id_type)
deriving DecidableEq, Repr

/-- The core of one level-changing operator. -/
def Evaluator.apply_level_op (e : Evaluator) (op : LevelOp) (a : Ciphertext) :
    Except Error Ciphertext :=
  match op with
  | .mod_switch_to_next => e.mod_switch_to_next_core a
  | .mod_switch_to target => e.mod_switch_to_core a target
  | .rescale_to_next => e.rescale_to_next_core a
  | .rescale_to target => e.rescale_to_core a target

/-- A sequence of level-changing operators, each applied to the result of the
one before; it stops at the first error. -/
def Evaluator.apply_level_ops (e : Evaluator) : List LevelOp → Ciphertext → Except Error Ciphertext
  | [], a => .ok a
  | op :: ops, a =>
    match e.apply_level_op op a with
    | .error err => .error err
    | .ok a1 => e.apply_level_ops ops a1

/-- The chain position of a ciphertext: the `chain_index` of the `ContextData`
named by its `parms_id`. -/
def SEALContext.chain_position (ctx : SEALContext) (c : Ciphertext) : Option Nat :=
  (ctx.get_context_data c.parms_id).map ContextData.chain_index

/-- The outcome `res` of an operation on `c` did not raise the level: when it
is a ciphertext, both `c` and the result are on the chain and the chain
position of the result is at most that of `c`. -/
def level_not_raised (ctx : SEALContext) (c : Ciphertext) (res : Except Error Ciphertext) : Prop :=
  match res with
  | .error _ => True
  | .ok r => ∃ i j, ctx.chain_position c = some i ∧ ctx.chain_position r = some j ∧ j ≤ i

/-! ## Batch encoder -/

/-- Modelled from the spec: the class `BatchEncoder` (declared in
`seal/batchencoder.h`), for a context with batching enabled: the slot count
`n` (the ring degree), the plain modulus `t`, a primitive `2n`-th root of
unity `root` modulo `t`, and the "fixed permutation matching row/column slot
semantics": slot `i` is the value of the plaintext polynomial at
`root ^ (2 * index_map[i] + 1)`. -/
structure BatchEncoder where
  slots : Nat
  plain_modulus : Nat
  root : Nat
  index_map : List Nat
deriving DecidableEq, Repr

/-- `BatchEncoder::slot_count()`. -/
def BatchEncoder.slot_count (enc : BatchEncoder) : Nat :=
  enc.slots

/-- Whether `n` is a power of two. -/
def is_power_of_two (n : Nat) : Bool :=
  (List.range (n + 1)).any (fun k => 2 ^ k == n)

/-- Invariant of an encoder built on a valid context with batching: the
degree is a power of two, the plain modulus is an odd prime, `root` has
`root ^ n = -1` modulo `t` (so it is a primitive `2n`-th root of unity, which
exists as `t` is `1` modulo `2n`), and the index map is a permutation of the
`n` slot positions. -/
def BatchEncoder.wf (enc : BatchEncoder) : Prop :=
  is_power_of_two enc.slots = true
    ∧ Nat.Prime enc.plain_modulus
    ∧ 2 < enc.plain_modulus
    ∧ enc.plain_modulus % (2 * enc.slots) = 1
    ∧ enc.root ^ enc.slots % enc.plain_modulus = enc.plain_modulus - 1
    ∧ enc.index_map.Nodup
    ∧ enc.index_map.length = enc.slots
    ∧ ∀ pos ∈ enc.index_map, pos < enc.slots

/-- Sum of `f 0, ..., f (n - 1)`. -/
def sum_upto (n : Nat) (f : Nat → Nat) : Nat :=
  ((List.range n).map f).sum

/-- The inverse of `root` modulo `t`: `root ^ (2n - 1)`. -/
def BatchEncoder.inv_root (enc : BatchEncoder) : Nat :=
  enc.root ^ (2 * enc.slots - 1) % enc.plain_modulus

/-- The inverse of `n` modulo the prime `t`: `n ^ (t - 2)`. -/
def BatchEncoder.inv_slots (enc : BatchEncoder) : Nat :=
  enc.slots ^ (enc.plain_modulus - 2) % enc.plain_modulus

/-- Modelled from the spec: the forward (negacyclic) NTT over `Z_t`: entry `j`
is the value of the polynomial with coefficients `c` at `root ^ (2j + 1)`. -/
def BatchEncoder.ntt_forward (enc : BatchEncoder) (c : List Nat) : List Nat :=
  (List.range enc.slots).map (fun j =>
    sum_upto enc.slots (fun k => c.getD k 0 * enc.root ^ ((2 * j + 1) * k)) % enc.plain_modulus)

/-- Modelled from the spec: the inverse NTT over `Z_t`: the coefficients of
the polynomial of degree below `n` with the values `y` at the points
`root ^ (2j + 1)`. -/
def BatchEncoder.ntt_inverse (enc : BatchEncoder) (y : List Nat) : List Nat :=
  (List.range enc.slots).map (fun k =>
    enc.inv_slots
      * sum_upto enc.slots (fun j => y.getD j 0 * enc.inv_root ^ ((2 * j + 1) * k))
      % enc.plain_modulus)

/-- The slot values laid out at their positions: position `index_map[i]`
receives `values[i]`; positions of slots beyond the input are zero. -/
def BatchEncoder.scatter (enc : BatchEncoder) (values : List Nat) : List Nat :=
  (List.range enc.slots).map (fun pos => values.getD (enc.index_map.indexOf pos) 0)

/-- The slot values read from their positions: `values[i]` is read at
position `index_map[i]`, for every one of the `n` slots. -/
def BatchEncoder.gather (enc : BatchEncoder) (temp : List Nat) : List Nat :=
  enc.index_map.map (fun pos => temp.getD pos 0)

/-- The all-zero fingerprint of a plaintext that is not tied to a level. -/
def parms_id_zero : parms_id_type :=
  ⟨0, 0, 0, 0⟩

/-- Modelled from the spec: engine `BatchEncoder::encode` for unsigned values:
"fails with `EncodingError` if input length exceeds slot count or values don't
fit ... range for `t`"; otherwise the destination becomes the plaintext whose
coefficients are the inverse NTT of the slot values. -/
def BatchEncoder.encode (enc : BatchEncoder) (values : List Nat) (_destination : Plaintext) :
    Except Error Plaintext :=
  if values.length > enc.slots then .error .EncodingError
  else if values.any (fun v => decide (enc.plain_modulus ≤ v)) then .error .EncodingError
  else .ok { parms_id := parms_id_zero, scale := double_one, data := enc.ntt_inverse (enc.scatter values) }

/-- The residue modulo `t` that stands for a signed value. -/
def BatchEncoder.signed_residue (enc : BatchEncoder) (v : Int) : Nat :=
  if v < 0 then (enc.plain_modulus + v).toNat else v.toNat

/-- The signed value a residue stands for: residues above `t / 2` are
negative. -/
def BatchEncoder.signed_value (enc : BatchEncoder) (r : Nat) : Int :=
  if r > enc.plain_modulus / 2 then (r : Int) - enc.plain_modulus else r

/-- Modelled from the spec: engine `BatchEncoder::encode` for signed values:
the signed range for `t` is `-(t / 2) .. t / 2`. -/
def BatchEncoder.encode_signed (enc : BatchEncoder) (values : List Int)
    (_destination : Plaintext) : Except Error Plaintext :=
  if values.length > enc.slots then .error .EncodingError
  else if values.any (fun v => decide (v.natAbs > enc.plain_modulus / 2)) then
    .error .EncodingError
  else .ok { parms_id := parms_id_zero, scale := double_one,
             data := enc.ntt_inverse (enc.scatter (values.map enc.signed_residue)) }

/-- Modelled from the spec: engine `BatchEncoder::decode` to unsigned values:
"decode is the forward transform", read through the slot permutation. -/
def BatchEncoder.decode (enc : BatchEncoder) (plain : Plaintext) : Except Error (List Nat) :=
  if plain.data.length > enc.slots then .error .InvalidParameter
  else .ok (enc.gather (enc.ntt_forward plain.data))

/-- Modelled from the spec: engine `BatchEncoder::decode` to signed values. -/
def BatchEncoder.decode_signed (enc : BatchEncoder) (plain : Plaintext) :
    Except Error (List Int) :=
  match enc.decode plain with
  | .error err => .error err
  | .ok values => .ok (values.map enc.signed_value)

/-- A default-constructed `Plaintext` (`Plaintext plain;`). -/
def Plaintext.empty : Plaintext :=
  { parms_id := parms_id_zero, scale := double_one, data := [] }

/-! ### The bindings of `bind_batchencoder.cpp` -/

/-- Lines 15-18: `encode(values, plain)` for `std::vector<std::uint64_t>`; the
result is the new value of `plain`. -/
def BatchEncoder.py_encode (enc : BatchEncoder) (values : List Nat) (plain : Plaintext) :
    Except Error Plaintext :=
  enc.encode values plain

/-- Lines 21-24: `encode(values, plain)` for `std::vector<std::int64_t>`,
the overload tried when the values do not convert to unsigned integers. -/
def BatchEncoder.py_encode_int64 (enc : BatchEncoder) (values : List Int) (plain : Plaintext) :
    Except Error Plaintext :=
  enc.encode_signed values plain

/-- Lines 27-32: `decode_uint64(plain)`. -/
def BatchEncoder.py_decode_uint64 (enc : BatchEncoder) (plain : Plaintext) :
    Except Error (List Nat) :=
  enc.decode plain

/-- Lines 35-40: `decode_int64(plain)`. -/
def BatchEncoder.py_decode_int64 (enc : BatchEncoder) (plain : Plaintext) :
    Except Error (List Int) :=
  enc.decode_signed plain

/-- Lines 43-44: `slot_count()`. -/
def BatchEncoder.py_slot_count (enc : BatchEncoder) : Nat :=
  enc.slot_count

/-- Lines 47-51: `encode_new(values)`: `Plaintext plain; encoder.encode(values, plain); return plain;`. -/
def BatchEncoder.py_encode_new (enc : BatchEncoder) (values : List Nat) : Except Error Plaintext :=
  enc.encode values Plaintext.empty

/-- The batch encoder of ring degree 4 over the plain modulus 17, with the
root 2 (`2 ^ 4 = 16 = -1` modulo 17) and the slots in two rows of two,
ordered by the powers of 3. -/
def example_encoder : BatchEncoder :=
  { slots := 4, plain_modulus := 17, root := 2, index_map := [0, 1, 3, 2] }

/-! ## Serialization -/

/-- Little-endian bytes of `w`, `k` of them. -/
def le_bytes : Nat → Nat → List Nat
  | 0, _ => []
  | k + 1, w => w % 256 :: le_bytes k (w / 256)

/-- The number whose little-endian bytes are `bs`. -/
def le_value : List Nat → Nat
  | [] => 0
  | b :: bs => b + 256 * le_value bs

/-- Whether every element of a byte string is a byte. -/
def all_bytes (bs : List Nat) : Bool :=
  bs.all (fun b => decide (b < 256))

/-- Modelled from the spec: the format tag that starts the header of every
serialized object. -/
def format_tag : List Nat :=
  [0x5E, 0xA1]

/-- Length of the header: format tag (2 bytes), compression-mode tag (1 byte),
total size (8 bytes). -/
def header_size : Nat :=
  11

/-- Modelled from the spec: "a fixed header (format tag, compression-mode tag,
total size)". -/
def header (compr_mode total_size : Nat) : List Nat :=
  format_tag ++ [compr_mode] ++ le_bytes 8 total_size

/-- Modelled from the spec: the type-specific part of the engine's serializer
for a persisted type `T`, with the contract the spec gives for it: the payload
written for an object (under the compression mode `compr_mode` used for the
type), the parser of payloads, the objects that can be serialized (`wf`), and
the validation of a loaded object against a context (`valid`).  Parsing
inverts writing, and the contract is byte-exact: a payload that parses to an
object is the payload written for that object. -/
structure Codec (T : Type) where
  compr_mode : Nat
  payload : T → List Nat
  parse_payload : List Nat → Option T
  wf : T → Prop
  valid : SEALContext → T → Bool
  compr_mode_lt : compr_mode < 256
  parse_payload_payload : ∀ x, wf x → parse_payload (payload x) = some x
  payload_parse_payload : ∀ b x, parse_payload b = some x → wf x ∧ payload x = b

/-- Modelled from the spec: engine `save`: the header, whose size field is the
total size of the output, followed by the payload. -/
def Codec.save {T : Type} (c : Codec T) (x : T) : List Nat :=
  header c.compr_mode (header_size + (c.payload x).length) ++ c.payload x

/-! ### Files -/

/-- The files the bindings read and write: the content of every file that can
be opened for reading, the paths that can be opened for writing, and the
number of bytes the device accepts in one write before the stream fails. -/
structure FileSystem where
  files : String → Option (List Nat)
  writable : String → Bool
  space : Nat

/-- The file system after `bytes` became the content of the file at `path`. -/
def FileSystem.put (fs : FileSystem) (path : String) (bytes : List Nat) : FileSystem :=
  { fs with files := fun p => if p = path then some bytes else fs.files p }

/-! ### A concrete serializer of plaintexts, for worked examples -/

/-- The 64-bit words of a plaintext: fingerprint, scale, coefficient count,
coefficients. -/
def Plaintext.to_words (pt : Plaintext) : List Nat :=
  [pt.parms_id.w0, pt.parms_id.w1, pt.parms_id.w2, pt.parms_id.w3, pt.scale, pt.data.length]
    ++ pt.data

/-- The plaintext with the given words. -/
def Plaintext.of_words : List Nat → Option Plaintext
  | w0 :: w1 :: w2 :: w3 :: scale :: count :: data =>
    if data.length = count then some { parms_id := ⟨w0, w1, w2, w3⟩, scale := scale, data := data }
    else none
  | _ => none

/-- The bytes of a list of 64-bit words, little-endian. -/
def bytes_of_words : List Nat → List Nat
  | [] => []
  | w :: ws => le_bytes 8 w ++ bytes_of_words ws

/-- The 64-bit words of a byte string whose length is a multiple of eight. -/
def words_of_bytes : List Nat → Option (List Nat)
  | b0 :: b1 :: b2 :: b3 :: b4 :: b5 :: b6 :: b7 :: rest =>
    if all_bytes [b0, b1, b2, b3, b4, b5, b6, b7] = true then
      match words_of_bytes rest with
      | some ws => some (le_value [b0, b1, b2, b3, b4, b5, b6, b7] :: ws)
      | none => none
    else none
  | [] => some []
  | _ => none

/-- Validation of a plaintext against a context: its fingerprint is all zero
(it is tied to no level) or names a level of the chain. -/
def Plaintext.valid_for (ctx : SEALContext) (pt : Plaintext) : Bool :=
  decide (pt.parms_id = parms_id_zero) || (ctx.get_context_data pt.parms_id).isSome

/-! ### Laws of the byte encodings

The concrete serializer below carries proofs of its contract; these are the
facts about the byte encodings they rest on. -/

/-- Little-endian encoding produces the requested number of bytes. -/
theorem le_bytes_length (k w : Nat) : (le_bytes k w).length = k := by
  induction k generalizing w with
  | zero => rfl
  | succ k ih => simp [le_bytes, ih]

/-- Little-endian encoding produces bytes. -/
theorem le_bytes_all_bytes (k w : Nat) : all_bytes (le_bytes k w) = true := by
  induction k generalizing w with
  | zero => rfl
  | succ k ih =>
    have hlt : w % 256 < 256 := Nat.mod_lt _ (by norm_num)
    have := ih (w / 256)
    simp only [all_bytes, List.all_eq_true, decide_eq_true_eq] at this ⊢
    intro b hb
    simp only [le_bytes, List.mem_cons] at hb
    rcases hb with rfl | hb
    · exact hlt
    · exact this b hb

/-- Decoding the little-endian bytes of a number that fits gives the number
back. -/
theorem le_value_le_bytes (k w : Nat) (hw : w < 256 ^ k) : le_value (le_bytes k w) = w := by
  induction k generalizing w with
  | zero =>
    simp only [pow_zero, Nat.lt_one_iff] at hw
    simp [le_bytes, le_value, hw]
  | succ k ih =>
    have hdiv : w / 256 < 256 ^ k := by
      rw [Nat.div_lt_iff_lt_mul (by norm_num)]
      rw [pow_succ] at hw
      exact hw
    simp only [le_bytes, le_value, ih _ hdiv]
    omega

/-- Encoding the value of a byte string gives the byte string back. -/
theorem le_bytes_le_value (bs : List Nat) (hb : all_bytes bs = true) :
    le_bytes bs.length (le_value bs) = bs := by
  induction bs with
  | nil => rfl
  | cons b bs ih =>
    simp only [all_bytes, List.all_cons, Bool.and_eq_true, decide_eq_true_eq] at hb
    have hrest : all_bytes bs = true := hb.2
    have hlt := hb.1
    simp only [List.length_cons, le_bytes, le_value]
    have h1 : (b + 256 * le_value bs) % 256 = b := by omega
    have h2 : (b + 256 * le_value bs) / 256 = le_value bs := by omega
    rw [h1, h2, ih hrest]

/-- The value of `k` bytes is below `256 ^ k`. -/
theorem le_value_lt (bs : List Nat) (hb : all_bytes bs = true) :
    le_value bs < 256 ^ bs.length := by
  induction bs with
  | nil => simp [le_value]
  | cons b bs ih =>
    simp only [all_bytes, List.all_cons, Bool.and_eq_true, decide_eq_true_eq] at hb
    have := ih hb.2
    simp only [le_value, List.length_cons, pow_succ]
    omega

/-- Reading words from a byte string that starts with eight bytes `L`: the word
of `L` when these are bytes, followed by the words of the rest. -/
theorem words_of_bytes_append (L rest : List Nat) (hL : L.length = 8) :
    words_of_bytes (L ++ rest)
      = if all_bytes L = true then (words_of_bytes rest).map (fun ws => le_value L :: ws)
        else none := by
  rcases L with _ | ⟨b0, _ | ⟨b1, _ | ⟨b2, _ | ⟨b3, _ | ⟨b4, _ | ⟨b5, _ | ⟨b6, _ | ⟨b7, _ | ⟨b8, L⟩⟩⟩⟩⟩⟩⟩⟩⟩
    <;> simp at hL
  have hnil : ([] : List Nat).append rest = rest := rfl
  simp only [List.cons_append, List.nil_append, words_of_bytes, hnil]
  split
  · cases words_of_bytes rest <;> rfl
  · rfl

/-- Reading back the bytes written for 64-bit words gives the words. -/
theorem words_of_bytes_of_words (ws : List Nat) (h : ∀ w ∈ ws, w < 2 ^ 64) :
    words_of_bytes (bytes_of_words ws) = some ws := by
  induction ws with
  | nil => rfl
  | cons w ws ih =>
    have hw : w < 256 ^ 8 := h w (List.mem_cons_self _ _)
    have ih1 := ih (fun x hx => h x (List.mem_cons_of_mem _ hx))
    rw [bytes_of_words, words_of_bytes_append _ _ (le_bytes_length 8 w), le_bytes_all_bytes,
      if_pos rfl, ih1, le_value_le_bytes 8 w hw]
    rfl

/-- One to seven bytes are not a sequence of words. -/
theorem words_of_bytes_short (b : List Nat) (h0 : b ≠ []) (h8 : b.length < 8) :
    words_of_bytes b = none := by
  rcases b with _ | ⟨b0, _ | ⟨b1, _ | ⟨b2, _ | ⟨b3, _ | ⟨b4, _ | ⟨b5, _ | ⟨b6, _ | ⟨b7, L⟩⟩⟩⟩⟩⟩⟩⟩
    <;> first | exact absurd rfl h0 | rfl | (simp at h8; omega)

/-- A byte string that reads as words is the byte string written for those
words, and the words are 64-bit. -/
theorem bytes_of_words_of_bytes (n : Nat) :
    ∀ b ws, b.length ≤ n → words_of_bytes b = some ws →
      (∀ w ∈ ws, w < 2 ^ 64) ∧ bytes_of_words ws = b := by
  induction n with
  | zero =>
    intro b ws hlen h
    have hb : b = [] := List.length_eq_zero.mp (by omega)
    subst hb
    simp only [words_of_bytes, Option.some.injEq] at h
    subst h
    exact ⟨by simp, rfl⟩
  | succ n ih =>
    intro b ws hlen h
    by_cases h0 : b = []
    · subst h0
      simp only [words_of_bytes, Option.some.injEq] at h
      subst h
      exact ⟨by simp, rfl⟩
    by_cases h8 : b.length < 8
    · rw [words_of_bytes_short b h0 h8] at h
      cases h
    · have hsplit : b = b.take 8 ++ b.drop 8 := (List.take_append_drop 8 b).symm
      have hL : (b.take 8).length = 8 := by simp; omega
      rw [hsplit, words_of_bytes_append _ _ hL] at h
      by_cases hall : all_bytes (b.take 8) = true
      · rw [if_pos hall] at h
        cases hrest : words_of_bytes (b.drop 8) with
        | none => rw [hrest] at h; cases h
        | some ws1 =>
          rw [hrest] at h
          simp only [Option.map_some', Option.some.injEq] at h
          obtain ⟨h1, h2⟩ := ih (b.drop 8) ws1 (by simp; omega) hrest
          subst h
          refine ⟨?_, ?_⟩
          · intro w hw
            rcases List.mem_cons.mp hw with rfl | hw
            · have := le_value_lt _ hall
              rw [hL] at this
              exact this
            · exact h1 w hw
          · have := le_bytes_le_value _ hall
            rw [hL] at this
            rw [bytes_of_words, this, h2]
            exact hsplit.symm
      · rw [if_neg hall] at h
        cases h

/-- The words of a plaintext determine the plaintext. -/
theorem Plaintext.of_words_to_words (pt : Plaintext) : Plaintext.of_words pt.to_words = some pt := by
  simp [Plaintext.to_words, Plaintext.of_words]

/-- Words that make up a plaintext are the words of that plaintext. -/
theorem Plaintext.to_words_of_words (ws : List Nat) (pt : Plaintext)
    (h : Plaintext.of_words ws = some pt) : pt.to_words = ws := by
  rcases ws with _ | ⟨w0, _ | ⟨w1, _ | ⟨w2, _ | ⟨w3, _ | ⟨sc, _ | ⟨n, data⟩⟩⟩⟩⟩⟩
    <;> simp only [Plaintext.of_words] at h <;> try cases h
  split at h
  · rename_i hlen
    cases h
    simp [Plaintext.to_words, hlen]
  · cases h

/-- A concrete instance of the serializer contract: plaintexts written as
their 64-bit words, little-endian, without compression. -/
def example_plaintext_codec : Codec Plaintext :=
  { compr_mode := 0
    payload := fun pt => bytes_of_words pt.to_words
    parse_payload := fun b =>
      match words_of_bytes b with
      | some ws => Plaintext.of_words ws
      | none => none
    wf := fun pt => ∀ w ∈ pt.to_words, w < 2 ^ 64
    valid := Plaintext.valid_for
    compr_mode_lt := by norm_num
    parse_payload_payload := by
      intro pt hwf
      simp only [words_of_bytes_of_words _ hwf, Plaintext.of_words_to_words]
    payload_parse_payload := by
      intro b pt h
      cases hws : words_of_bytes b with
      | none => simp [hws] at h
      | some ws =>
        simp only [hws] at h
        obtain ⟨h1, h2⟩ := bytes_of_words_of_bytes b.length b ws (le_refl _) hws
        have hw := Plaintext.to_words_of_words ws pt h
        exact ⟨by intro w hmem; rw [hw] at hmem; exact h1 w hmem, by show bytes_of_words pt.to_words = b; rw [hw]; exact h2⟩ }

/-- A plaintext of the example context, tied to its first data level. -/
def example_plaintext : Plaintext :=
  { parms_id := ⟨2, 0, 0, 0⟩, scale := double_one, data := [5, 7, 0, 16] }

/-- A plaintext produced under parameters that are not in the chain of the
example context. -/
def foreign_plaintext : Plaintext :=
  { parms_id := ⟨9, 9, 9, 9⟩, scale := double_one, data := [5, 7, 0, 16] }

/-- A file system with one writable path, `"pt.bin"`, that accepts a thousand
bytes, and a file `"foreign.bin"` holding the saved foreign plaintext. -/
def example_fs : FileSystem :=
  { files := fun p =>
      if p = "foreign.bin" then some (example_plaintext_codec.save foreign_plaintext) else none
    writable := fun p => p == "pt.bin"
    space := 1000 }

/-! ## Decryptor -/

/-- The class `Decryptor` as the bindings use it.  Its method
`decrypt(const Ciphertext &encrypted, Plaintext &destination)` is declared in
`seal/decryptor.h` and is a parameter here: from the ciphertext and the value
the destination object holds before the call it gives the value the
destination holds afterwards, or an error. -/
structure Decryptor where
  context : SEALContext
  decrypt : Ciphertext → Plaintext → Except Error Plaintext

/-- `bind_decryptor.cpp`, lines 14-17: `decrypt(encrypted, destination)` calls
`self.decrypt(encrypted, destination)` on the caller's object; the result is
the value of `destination` after the call. -/
def Decryptor.py_decrypt (self : Decryptor) (encrypted : Ciphertext) (destination : Plaintext) :
    Except Error Plaintext :=
  self.decrypt encrypted destination

/-- `bind_decryptor.cpp`, lines 20-25: `decrypt_new(encrypted)`:
`Plaintext destination; self.decrypt(encrypted, destination); return destination;`. -/
def Decryptor.py_decrypt_new (self : Decryptor) (encrypted : Ciphertext) : Except Error Plaintext :=
  self.decrypt encrypted Plaintext.empty

/-! ## Random seeds (`prng_seed_type`) -/

/-- The constant `prng_seed_uint64_count` (declared in `seal/randomgen.h`): a
seed is a `std::array<std::uint64_t, 8>`, "a Python list of 8 uint64_t" in the
words of `bind_random.cpp`. -/
def prng_seed_uint64_count : Nat :=
  8

/-- The memory that holds a `prng_seed_type` object, in 64-bit words counted
from the start of the array: words 0 to 7 are the seed, the words from 8 on are
whatever lies behind the object. -/
abbrev SeedMemory := Nat → Nat

/-- The seed held in the memory. -/
def SeedMemory.seed (m : SeedMemory) : List Nat :=
  (List.range prng_seed_uint64_count).map m

/-- `std::array::operator[]` does no bounds checking: `seed[i]` is the word
`i` places after the start of the array, inside the array or not. -/
def SeedMemory.index (m : SeedMemory) (i : Nat) : Nat :=
  m i

/-- Assignment through `std::array::operator[]`. -/
def SeedMemory.assign (m : SeedMemory) (i v : Nat) : SeedMemory :=
  fun j => if j = i then v else m j

/-- `bind_random.cpp`, line 70: `__getitem__`:
`[](const prng_seed_type &seed, size_t i) { return seed[i]; }`. -/
def prng_seed_getitem (m : SeedMemory) (i : Nat) : Except Error Nat :=
  .ok (m.index i)

/-- `bind_random.cpp`, line 71: `__setitem__`:
`[](prng_seed_type &seed, size_t i, uint64_t v) { seed[i] = v; }`.  The result
is the outcome of the call and the memory afterwards. -/
def prng_seed_setitem (m : SeedMemory) (i v : Nat) : Except Error Unit × SeedMemory :=
  (.ok (), m.assign i (v % 2 ^ 64))

/-- `bind_random.cpp`, line 72: `__len__`:
`[](const prng_seed_type &) { return prng_seed_uint64_count; }`. -/
def prng_seed_len (_m : SeedMemory) : Nat :=
  prng_seed_uint64_count

/-- A memory whose seed words are `1, ..., 8` and whose word right behind the
seed holds `0xDEAD`. -/
def example_seed_memory : SeedMemory :=
  fun j => if j < 8 then j + 1 else if j = 8 then 0xDEAD else 0

/-! ## CKKS encoder -/

/-- The class `CKKSEncoder` as the bindings use it.  The two `encode`
overloads of the engine that the vector bindings call (declared in
`seal/ckks.h`) are parameters: from the values (a `double` as its 64-bit
pattern, a `std::complex<double>` as the pair of its parts), the scale and the
value the destination object holds before the call, each gives the value the
destination holds afterwards, or an error. -/
structure CKKSEncoder where
  context : SEALContext
  encode : List Nat → Nat → Plaintext → Except Error Plaintext
  encode_complex : List (Nat × Nat) → Nat → Plaintext → Except Error Plaintext

/-- `bind_ckksencoder.cpp`, lines 16-20: `encode(values, scale, plain)` for
`std::vector<double>`: the line written to standard output, and the outcome of
`encoder.encode(values, scale, plain)` on the caller's object (the value of
`plain` after the call). -/
def CKKSEncoder.py_encode (encoder : CKKSEncoder) (values : List Nat) (scale : Nat)
    (plain : Plaintext) : String × Except Error Plaintext :=
  ("[DEBUG] encode called with values.size() = " ++ toString values.length,
    encoder.encode values scale plain)

/-- `bind_ckksencoder.cpp`, lines 23-27: `encode(values, scale, plain)` for
`std::vector<std::complex<double>>`, the overload tried when the values do not
convert to `double`. -/
def CKKSEncoder.py_encode_complex (encoder : CKKSEncoder) (values : List (Nat × Nat))
    (scale : Nat) (plain : Plaintext) : String × Except Error Plaintext :=
  ("[DEBUG] encode2 called with values.size() = " ++ toString values.length,
    encoder.encode_complex values scale plain)

/-- `bind_ckksencoder.cpp`, lines 66-71: `encode_new(values, scale)` for
`std::vector<double>`:
`Plaintext plain; encoder.encode(values, scale, plain); return plain;`. -/
def CKKSEncoder.py_encode_new (encoder : CKKSEncoder) (values : List Nat) (scale : Nat) :
    String × Except Error Plaintext :=
  ("[DEBUG] encode_new called with values.size() = " ++ toString values.length,
    encoder.encode values scale Plaintext.empty)

/-- `bind_ckksencoder.cpp`, lines 74-80: `encode_new(values, scale)` for
`std::vector<std::complex<double>>`. -/
def CKKSEncoder.py_encode_new_complex (encoder : CKKSEncoder) (values : List (Nat × Nat))
    (scale : Nat) : String × Except Error Plaintext :=
  ("[DEBUG] encode_new (complex) called with values.size() = " ++ toString values.length,
    encoder.encode_complex values scale Plaintext.empty)

/-! ## The `load` and `save` lambdas over an arbitrary engine -/

/-- What a `load` lambda of a class did: the outcome of the call, the value of
`self` afterwards, and the stream contents on which the deserialiser of the
engine was invoked, in order (none when it was not invoked). -/
structure LoadRun (T : Type) where
  result : Except Error Unit
  self : T
  deserialised : List (List Nat)

/-- The load lambdas of the classes bound to a context (`Ciphertext.load`,
`bind_ciphertext.cpp` lines 38-43; `Plaintext.load`, `bind_plaintext.cpp`
lines 69-75):
`std::ifstream in(path, std::ios::binary); if (!in) throw std::runtime_error(...);
self.load(context, in); in.close();`.
The engine's `load(context, stream)` is a parameter: from the value of `self`
before the call, the context and the content of the stream it gives its
outcome and the value of `self` afterwards. -/
def py_load {T : Type} (engine_load : T → SEALContext → List Nat → Except Error Unit × T)
    (fs : FileSystem) (self : T) (context : SEALContext) (path : String) : LoadRun T :=
  match fs.files path with
  | none => { result := .error .RuntimeError, self := self, deserialised := [] }
  | some content =>
    { result := (engine_load self context content).1
      self := (engine_load self context content).2
      deserialised := [content] }

/-- The load lambdas of the classes that are not bound to a context
(`Modulus.load`, `bind_modulus.cpp` lines 33-39; `EncryptionParameters.load`,
`bind_encryption.cpp` lines 41-46; `UniformRandomGeneratorInfo.load`,
`bind_random.cpp` lines 29-34):
`std::ifstream in(path, std::ios::binary); if (!in) throw std::runtime_error(...);
self.load(in); in.close();`, with the engine's `load(stream)` as a parameter. -/
def py_load_free {T : Type} (engine_load : T → List Nat → Except Error Unit × T)
    (fs : FileSystem) (self : T) (path : String) : LoadRun T :=
  match fs.files path with
  | none => { result := .error .RuntimeError, self := self, deserialised := [] }
  | some content =>
    { result := (engine_load self content).1
      self := (engine_load self content).2
      deserialised := [content] }

/-- A deserialiser that overwrites the object it loads into whatever the
stream holds. -/
def overwriting_load (_self : Plaintext) (_content : List Nat) : Except Error Unit × Plaintext :=
  (.ok (), Plaintext.empty)

/-- The engine's `obj.save(out)` on the stream the lambda opened at a path, as
a parameter: from the file system and the path it gives whether it raises or
returns, the state of the stream when it returns (`true` for a good stream),
and the file system afterwards. -/
abbrev EngineSave := FileSystem → String → Except Error Bool × FileSystem

/-- The `save` methods of the keys and of `Plaintext` (`PublicKey.save`,
`SecretKey.save`, `RelinKeys.save`, `GaloisKeys.save`, `bind_keys.cpp` lines
21-26, 33-38, 42-47, 51-56; `Plaintext.save`, `bind_plaintext.cpp` lines
61-67):
`std::ofstream out(path, std::ios::binary); if (!out) throw std::runtime_error(...);
obj.save(out); if (!out.good()) throw std::runtime_error(...);`.
Opening a writable path creates or truncates the file. -/
def py_save (obj_save : EngineSave) (fs : FileSystem) (path : String) :
    Except Error Unit × FileSystem :=
  if fs.writable path = false then (.error .RuntimeError, fs)
  else
    match obj_save (fs.put path []) path with
    | (.error err, fs1) => (.error err, fs1)
    | (.ok good, fs1) => if good = false then (.error .RuntimeError, fs1) else (.ok (), fs1)

/-- The module-level `save` overloads (`bind_serialization.cpp` lines 20-54):
`std::ofstream out(path, std::ios::binary);
if (!out.is_open()) throw std::runtime_error(...); obj.save(out);`. -/
def module_save (obj_save : EngineSave) (fs : FileSystem) (path : String) :
    Except Error Unit × FileSystem :=
  if fs.writable path = false then (.error .RuntimeError, fs)
  else
    match obj_save (fs.put path []) path with
    | (.error err, fs1) => (.error err, fs1)
    | (.ok _, fs1) => (.ok (), fs1)

/-- Whether a call raised. -/
def raised {α : Type} (r : Except Error α) : Bool :=
  match r with
  | .error _ => true
  | .ok _ => false

/-! ## Module initialisation (`module.cpp`) -/

/-- One statement of the module initialisation that the registry of pybind11
sees: the registration of a class (C++ type, the C++ base classes named in
`py::class_<T, Base, ...>`, Python name), the registration of an enum, a
default argument `py::arg(...) = value` whose value is of a bound C++ type
(it is converted to a Python object when the statement runs), or a
module-level function `m.def(name, ...)`. -/
inductive Registration where
  | class_ (cpp_type : String) (bases : List String) (py_name : String)
  | enum_ (cpp_type : String) (py_name : String)
  | default_arg (cpp_type : String)
  | function (py_name : String)
deriving DecidableEq, Repr

/-- The binding functions defined under `src/core`. -/
inductive Binding where
  | bind_coeffmodulus
  | bind_plainmodulus
  | bind_encryption_parameters
  | bind_context
  | bind_keys
  | bind_ciphertext
  | bind_encoder
  | bind_evaluator
  | bind_serialization
  | bind_security_utils
  | bind_modulus
  | bind_plaintext
  | bind_batchencoder
  | bind_ckksencoder
  | bind_decryptor
  | bind_encryptor
  | bind_random
  | bind_security
deriving DecidableEq, Repr

/-- The registrations each binding function makes, in source order: every
`py::class_`, `py::enum_` and `m.def` of its body, and every default argument
whose value is of a bound C++ type (`bind_coeffmodulus.cpp` lines 13 and 31,
`bind_encryption.cpp` line 15, `bind_context.cpp` line 56).  A holder type
(`std::shared_ptr<T>`) is not a base class; the methods of a class are not
module-level names.  `bind_security_utils` is the function of `bind_util.cpp`,
`bind_encryption_parameters` that of `bind_encryption.cpp`. -/
def Binding.registrations : Binding → List Registration
  | .bind_coeffmodulus =>
    [.class_ "CoeffModulus" [] "CoeffModulus", .default_arg "sec_level_type",
     .default_arg "sec_level_type"]
  | .bind_plainmodulus => [.class_ "PlainModulus" [] "PlainModulus"]
  | .bind_encryption_parameters =>
    [.class_ "EncryptionParameters" [] "EncryptionParameters", .default_arg "scheme_type"]
  | .bind_context =>
    [.class_ "EncryptionParameterQualifiers" [] "EncryptionParameterQualifiers",
     .class_ "SEALContext::ContextData" [] "ContextData",
     .class_ "SEALContext" [] "SEALContext", .default_arg "sec_level_type"]
  | .bind_keys =>
    [.class_ "PublicKey" [] "PublicKey", .class_ "SecretKey" [] "SecretKey",
     .class_ "RelinKeys" [] "RelinKeys", .class_ "GaloisKeys" [] "GaloisKeys",
     .class_ "KeyGenerator" [] "KeyGenerator"]
  | .bind_ciphertext => [.class_ "Ciphertext" [] "Ciphertext"]
  | .bind_encoder => [.class_ "BatchEncoder" [] "BatchEncoder"]
  | .bind_evaluator => [.class_ "Evaluator" [] "Evaluator"]
  | .bind_serialization =>
    [.function "save", .function "save", .function "save", .function "save", .function "save",
     .function "save", .function "load_public_key", .function "load_secret_key",
     .function "load_relin_keys", .function "load_galois_keys", .function "load_ciphertext",
     .function "load_plaintext"]
  | .bind_security_utils => [.function "secure_erase", .function "disable_memory_pool"]
  | .bind_modulus => [.class_ "Modulus" [] "Modulus"]
  | .bind_plaintext => [.class_ "Plaintext" [] "Plaintext"]
  | .bind_batchencoder => [.class_ "BatchEncoder" [] "BatchEncoder"]
  | .bind_ckksencoder => [.class_ "CKKSEncoder" [] "CKKSEncoder"]
  | .bind_decryptor => [.class_ "Decryptor" [] "Decryptor"]
  | .bind_encryptor =>
    [.class_ "Encryptor" [] "Encryptor",
     .class_ "Serializable<Ciphertext>" [] "SerializableCiphertext"]
  | .bind_random =>
    [.enum_ "prng_type" "prng_type",
     .class_ "UniformRandomGeneratorInfo" [] "UniformRandomGeneratorInfo",
     .class_ "UniformRandomGeneratorFactory" [] "UniformRandomGeneratorFactory",
     .class_ "UniformRandomGenerator" [] "UniformRandomGenerator",
     .class_ "Blake2xbPRNGFactory" ["UniformRandomGeneratorFactory"] "Blake2xbPRNGFactory",
     .class_ "Shake256PRNGFactory" ["UniformRandomGeneratorFactory"] "Shake256PRNGFactory",
     .class_ "prng_seed_type" [] "prng_seed_type", .function "random_seed"]
  | .bind_security =>
    [.function "secure_erase", .function "set_global_memory_pool",
     .class_ "MemoryPoolHandle" [] "MemoryPoolHandle"]

/-- A statement of the body of `PYBIND11_MODULE(seal, m)`: a registration made
in place or the call of a binding function. -/
inductive Statement where
  | register (r : Registration)
  | call (b : Binding)
deriving DecidableEq, Repr

/-- The body of `PYBIND11_MODULE(seal, m)`, `module.cpp` lines 27-71: the two
enums (lines 33-41), the calls of the binding functions (lines 44-63) and the
function `secure_erase` (line 67).  The calls that are commented out
(`bind_encoder` on line 50, `bind_advanced`, `bind_util`, `bind_encryption`)
are not statements of the body. -/
def module_body : List Statement :=
  [.register (.enum_ "scheme_type" "SchemeType"),
   .register (.enum_ "sec_level_type" "SecLevelType"),
   .call .bind_coeffmodulus, .call .bind_plainmodulus, .call .bind_encryption_parameters,
   .call .bind_context, .call .bind_keys, .call .bind_ciphertext, .call .bind_evaluator,
   .call .bind_serialization, .call .bind_security_utils, .call .bind_modulus,
   .call .bind_plaintext, .call .bind_batchencoder, .call .bind_ckksencoder,
   .call .bind_decryptor, .call .bind_encryptor, .call .bind_random, .call .bind_security,
   .register (.function "secure_erase")]

/-- The binding functions a body invokes, in order. -/
def invoked : List Statement → List Binding
  | [] => []
  | .register _ :: rest => invoked rest
  | .call b :: rest => b :: invoked rest

/-- The registrations a body makes, in the order in which they run. -/
def registrations_of : List Statement → List Registration
  | [] => []
  | .register r :: rest => r :: registrations_of rest
  | .call b :: rest => b.registrations ++ registrations_of rest

/-- The registrations of module initialisation. -/
def module_init : List Registration :=
  registrations_of module_body

/-- The Python class name a statement registers (classes and enums). -/
def Registration.class_name : Registration → Option String
  | .class_ _ _ py_name => some py_name
  | .enum_ _ py_name => some py_name
  | .default_arg _ => none
  | .function _ => none

/-- The Python class names registered by a list of statements, in order. -/
def class_names (rs : List Registration) : List String :=
  rs.filterMap Registration.class_name

/-- The C++ type a statement registers. -/
def Registration.provides : Registration → Option String
  | .class_ cpp_type _ _ => some cpp_type
  | .enum_ cpp_type _ => some cpp_type
  | .default_arg _ => none
  | .function _ => none

/-- The C++ types that must be registered when a statement runs: the base
classes of a class, the type of a default argument. -/
def Registration.needs : Registration → List String
  | .class_ _ bases _ => bases
  | .enum_ _ _ => []
  | .default_arg cpp_type => [cpp_type]
  | .function _ => []

/-- The C++ types registered by a list of statements. -/
def provided (rs : List Registration) : List String :=
  rs.filterMap Registration.provides

/-- Whether every statement finds the types it needs registered by the
statements before it (`known` are the types registered beforehand). -/
def registered_before_use (known : List String) : List Registration → Bool
  | [] => true
  | r :: rest =>
    r.needs.all (fun t => decide (t ∈ known))
      && registered_before_use (known ++ (provided [r])) rest

/-! ## The Evaluator bindings over an arbitrary engine

The lambdas of `bind_evaluator.cpp` whose Python name does not end in
`_inplace` (and the three `*_plain_inplace` lambdas), with the methods of the
engine's `Evaluator` as parameters.  A lambda hands its `const Ciphertext &`
arguments to the engine for reading and its one `Ciphertext &` argument for
writing; a Python list of ciphertexts reaches the engine as a `std::vector` of
copies. -/

/-- What an engine method did through the `Ciphertext &` argument it received
by non-const reference: the outcome of the call, and the value the object
behind that argument holds when the method returns or raises. -/
abbrev Written := Except Error Unit × Ciphertext

/-- The outcome of a binding call and the Python objects after it, for a
lambda that passed the object `target` by non-const reference to an engine
method that did `w`. -/
def write_back (h : Store) (target : Ref) (w : Written) : Except Error Unit × Store :=
  (w.1, h.write target w.2)

/-- The methods of the engine's `Evaluator` (declared in `seal/evaluator.h`)
that these lambdas call, as parameters of any behaviour.  A method is given
the Python objects and its arguments in the order of the call; it may read
every object, tell whether two of its references are the same object, and
write the object behind its last `Ciphertext` reference, also before it
raises.  `add_many` and `multiply_many` are given the values of the operands,
which are copies. -/
structure EvaluatorMethods where
  add : Store → Ref → Ref → Ref → Written
  add_many : Store → List Ciphertext → Ref → Written
  add_plain_inplace : Store → Ref → Plaintext → Written
  add_plain : Store → Ref → Plaintext → Ref → Written
  sub : Store → Ref → Ref → Ref → Written
  sub_plain_inplace : Store → Ref → Plaintext → Written
  sub_plain : Store → Ref → Plaintext → Ref → Written
  negate : Store → Ref → Ref → Written
  multiply : Store → Ref → Ref → Ref → Written
  multiply_many : Store → List Ciphertext → RelinKeys → Ref → Written
  multiply_plain_inplace : Store → Ref → Plaintext → Written
  multiply_plain : Store → Ref → Plaintext → Ref → Written
  square : Store → Ref → Ref → Written
  relinearize : Store → Ref → RelinKeys → Ref → Written
  exponentiate : Store → Ref → Nat → RelinKeys → Ref → Written
  mod_switch_to_next : Store → Ref → Ref → Written
  mod_switch_to : Store → Ref → parms_id_type → Ref → Written
  rescale_to_next_inplace : Store → Ref → Written
  rescale_to_inplace : Store → Ref → parms_id_type → Written
  rotate_rows : Store → Ref → Int → GaloisKeys → Ref → Written
  rotate_columns : Store → Ref → GaloisKeys → Ref → Written
  rotate_vector : Store → Ref → Int → GaloisKeys → Ref → Written
  apply_galois : Store → Ref → Nat → GaloisKeys → Ref → Written
  complex_conjugate : Store → Ref → GaloisKeys → Ref → Written
  transform_to_ntt : Store → Ref → Ref → Written
  transform_from_ntt : Store → Ref → Ref → Written

/-- Line 13: `add`:
`[](Evaluator &e, const Ciphertext &a, const Ciphertext &b, Ciphertext &out) { e.add(a, b, out); }`. -/
def EvaluatorMethods.py_add (e : EvaluatorMethods) (h : Store) (a b out : Ref) :
    Except Error Unit × Store :=
  write_back h out (e.add h a b out)
/-- Line 15: `add_many`:
`[](Evaluator &e, const std::vector<Ciphertext> &operands, Ciphertext &destination) { e.add_many(operands, destination); }`;
the vector holds copies of the objects in the Python list. -/
def EvaluatorMethods.py_add_many (e : EvaluatorMethods) (h : Store) (operands : List Ref)
    (destination : Ref) : Except Error Unit × Store :=
  write_back h destination (e.add_many h (operands.map h) destination)
/-- Line 16: `add_plain`:
`[](Evaluator &e, Ciphertext &a, const Plaintext &b) { e.add_plain_inplace(a, b); }`. -/
def EvaluatorMethods.py_add_plain (e : EvaluatorMethods) (h : Store) (a : Ref) (b : Plaintext) :
    Except Error Unit × Store :=
  write_back h a (e.add_plain_inplace h a b)
/-- Line 17: `add_plain_out`:
`[](Evaluator &e, const Ciphertext &a, const Plaintext &b, Ciphertext &out) { e.add_plain(a, b, out); }`. -/
def EvaluatorMethods.py_add_plain_out (e : EvaluatorMethods) (h : Store) (a : Ref)
    (b : Plaintext) (out : Ref) : Except Error Unit × Store :=
  write_back h out (e.add_plain h a b out)
/-- Line 20: `sub`: `(const Ciphertext &a, const Ciphertext &b, Ciphertext &out)`,
`e.sub(a, b, out)`. -/
def EvaluatorMethods.py_sub (e : EvaluatorMethods) (h : Store) (a b out : Ref) :
    Except Error Unit × Store :=
  write_back h out (e.sub h a b out)
/-- Line 22: `sub_plain`: `(Ciphertext &a, const Plaintext &b)`,
`e.sub_plain_inplace(a, b)`. -/
def EvaluatorMethods.py_sub_plain (e : EvaluatorMethods) (h : Store) (a : Ref) (b : Plaintext) :
    Except Error Unit × Store :=
  write_back h a (e.sub_plain_inplace h a b)
/-- Line 23: `sub_plain_out`: `(const Ciphertext &a, const Plaintext &b, Ciphertext &out)`,
`e.sub_plain(a, b, out)`. -/
def EvaluatorMethods.py_sub_plain_out (e : EvaluatorMethods) (h : Store) (a : Ref)
    (b : Plaintext) (out : Ref) : Except Error Unit × Store :=
  write_back h out (e.sub_plain h a b out)
/-- Line 26: `negate`: `(const Ciphertext &a, Ciphertext &out)`, `e.negate(a, out)`. -/
def EvaluatorMethods.py_negate (e : EvaluatorMethods) (h : Store) (a out : Ref) :
    Except Error Unit × Store :=
  write_back h out (e.negate h a out)
/-- Line 30: `multiply`: `(const Ciphertext &a, const Ciphertext &b, Ciphertext &out)`,
`e.multiply(a, b, out)`. -/
def EvaluatorMethods.py_multiply (e : EvaluatorMethods) (h : Store) (a b out : Ref) :
    Except Error Unit × Store :=
  write_back h out (e.multiply h a b out)
/-- Line 32: `multiply_many`:
`(const std::vector<Ciphertext> &operands, const RelinKeys &relin_keys, Ciphertext &destination)`,
`e.multiply_many(operands, relin_keys, destination)`; the vector holds copies. -/
def EvaluatorMethods.py_multiply_many (e : EvaluatorMethods) (h : Store) (operands : List Ref)
    (relin_keys : RelinKeys) (destination : Ref) : Except Error Unit × Store :=
  write_back h destination (e.multiply_many h (operands.map h) relin_keys destination)
/-- Line 33: `multiply_plain`: `(Ciphertext &a, const Plaintext &b)`,
`e.multiply_plain_inplace(a, b)`. -/
def EvaluatorMethods.py_multiply_plain (e : EvaluatorMethods) (h : Store) (a : Ref)
    (b : Plaintext) : Except Error Unit × Store :=
  write_back h a (e.multiply_plain_inplace h a b)
/-- Line 34: `multiply_plain_out`:
`(const Ciphertext &a, const Plaintext &b, Ciphertext &out)`, `e.multiply_plain(a, b, out)`. -/
def EvaluatorMethods.py_multiply_plain_out (e : EvaluatorMethods) (h : Store) (a : Ref)
    (b : Plaintext) (out : Ref) : Except Error Unit × Store :=
  write_back h out (e.multiply_plain h a b out)
/-- Line 35: `square`: `(const Ciphertext &a, Ciphertext &out)`, `e.square(a, out)`. -/
def EvaluatorMethods.py_square (e : EvaluatorMethods) (h : Store) (a out : Ref) :
    Except Error Unit × Store :=
  write_back h out (e.square h a out)
/-- Line 39: `relinearize`:
`(const Ciphertext &a, const RelinKeys &relin_keys, Ciphertext &out)`,
`e.relinearize(a, relin_keys, out)`. -/
def EvaluatorMethods.py_relinearize (e : EvaluatorMethods) (h : Store) (a : Ref)
    (relin_keys : RelinKeys) (out : Ref) : Except Error Unit × Store :=
  write_back h out (e.relinearize h a relin_keys out)
/-- Line 43: `exponentiate`:
`(const Ciphertext &a, std::uint64_t exponent, const RelinKeys &relin_keys, Ciphertext &out)`,
`e.exponentiate(a, exponent, relin_keys, out)`. -/
def EvaluatorMethods.py_exponentiate (e : EvaluatorMethods) (h : Store) (a : Ref)
    (exponent : Nat) (relin_keys : RelinKeys) (out : Ref) : Except Error Unit × Store :=
  write_back h out (e.exponentiate h a exponent relin_keys out)
/-- Line 47: `mod_switch_to_next`: `(const Ciphertext &a, Ciphertext &out)`,
`e.mod_switch_to_next(a, out)`. -/
def EvaluatorMethods.py_mod_switch_to_next (e : EvaluatorMethods) (h : Store) (a out : Ref) :
    Except Error Unit × Store :=
  write_back h out (e.mod_switch_to_next h a out)
/-- Line 49: `mod_switch_to`: `(const Ciphertext &a, parms_id_type parms_id, Ciphertext &out)`,
`e.mod_switch_to(a, parms_id, out)`. -/
def EvaluatorMethods.py_mod_switch_to (e : EvaluatorMethods) (h : Store) (a : Ref)
    (parms_id : parms_id_type) (out : Ref) : Except Error Unit × Store :=
  write_back h out (e.mod_switch_to h a parms_id out)
/-- Line 55: `rescale_to_next`:
`[](Evaluator &e, Ciphertext &a) { e.rescale_to_next_inplace(a); }`. -/
def EvaluatorMethods.py_rescale_to_next (e : EvaluatorMethods) (h : Store) (a : Ref) :
    Except Error Unit × Store :=
  write_back h a (e.rescale_to_next_inplace h a)
/-- Line 56: `rescale_to`:
`[](Evaluator &e, Ciphertext &a, parms_id_type parms_id) { e.rescale_to_inplace(a, parms_id); }`. -/
def EvaluatorMethods.py_rescale_to (e : EvaluatorMethods) (h : Store) (a : Ref)
    (parms_id : parms_id_type) : Except Error Unit × Store :=
  write_back h a (e.rescale_to_inplace h a parms_id)
/-- Line 59: `rotate_rows`:
`(const Ciphertext &a, int steps, const GaloisKeys &galois_keys, Ciphertext &out)`,
`e.rotate_rows(a, steps, galois_keys, out)`. -/
def EvaluatorMethods.py_rotate_rows (e : EvaluatorMethods) (h : Store) (a : Ref) (steps : Int)
    (galois_keys : GaloisKeys) (out : Ref) : Except Error Unit × Store :=
  write_back h out (e.rotate_rows h a steps galois_keys out)
/-- Line 61: `rotate_columns`:
`(const Ciphertext &a, const GaloisKeys &galois_keys, Ciphertext &out)`,
`e.rotate_columns(a, galois_keys, out)`. -/
def EvaluatorMethods.py_rotate_columns (e : EvaluatorMethods) (h : Store) (a : Ref)
    (galois_keys : GaloisKeys) (out : Ref) : Except Error Unit × Store :=
  write_back h out (e.rotate_columns h a galois_keys out)
/-- Line 63: `rotate_vector`:
`(const Ciphertext &a, int steps, const GaloisKeys &galois_keys, Ciphertext &out)`,
`e.rotate_vector(a, steps, galois_keys, out)`. -/
def EvaluatorMethods.py_rotate_vector (e : EvaluatorMethods) (h : Store) (a : Ref) (steps : Int)
    (galois_keys : GaloisKeys) (out : Ref) : Except Error Unit × Store :=
  write_back h out (e.rotate_vector h a steps galois_keys out)
/-- Line 65: `apply_galois`:
`(const Ciphertext &a, std::uint32_t galois_elt, const GaloisKeys &galois_keys, Ciphertext &out)`,
`e.apply_galois(a, galois_elt, galois_keys, out)`. -/
def EvaluatorMethods.py_apply_galois (e : EvaluatorMethods) (h : Store) (a : Ref)
    (galois_elt : Nat) (galois_keys : GaloisKeys) (out : Ref) : Except Error Unit × Store :=
  write_back h out (e.apply_galois h a galois_elt galois_keys out)
/-- Line 69: `complex_conjugate`:
`(const Ciphertext &a, const GaloisKeys &galois_keys, Ciphertext &out)`,
`e.complex_conjugate(a, galois_keys, out)`. -/
def EvaluatorMethods.py_complex_conjugate (e : EvaluatorMethods) (h : Store) (a : Ref)
    (galois_keys : GaloisKeys) (out : Ref) : Except Error Unit × Store :=
  write_back h out (e.complex_conjugate h a galois_keys out)
/-- Line 73: `multiply_plain_inplace`: `(Ciphertext &a, const Plaintext &b)`,
`e.multiply_plain_inplace(a, b)`. -/
def EvaluatorMethods.py_multiply_plain_inplace (e : EvaluatorMethods) (h : Store) (a : Ref)
    (b : Plaintext) : Except Error Unit × Store :=
  write_back h a (e.multiply_plain_inplace h a b)
/-- Line 74: `add_plain_inplace`: `(Ciphertext &a, const Plaintext &b)`,
`e.add_plain_inplace(a, b)`. -/
def EvaluatorMethods.py_add_plain_inplace (e : EvaluatorMethods) (h : Store) (a : Ref)
    (b : Plaintext) : Except Error Unit × Store :=
  write_back h a (e.add_plain_inplace h a b)
/-- Line 75: `sub_plain_inplace`: `(Ciphertext &a, const Plaintext &b)`,
`e.sub_plain_inplace(a, b)`. -/
def EvaluatorMethods.py_sub_plain_inplace (e : EvaluatorMethods) (h : Store) (a : Ref)
    (b : Plaintext) : Except Error Unit × Store :=
  write_back h a (e.sub_plain_inplace h a b)
/-- Line 80: `transform_to_ntt`: `(const Ciphertext &a, Ciphertext &out)`,
`e.transform_to_ntt(a, out)`. -/
def EvaluatorMethods.py_transform_to_ntt (e : EvaluatorMethods) (h : Store) (a out : Ref) :
    Except Error Unit × Store :=
  write_back h out (e.transform_to_ntt h a out)
/-- Line 81: `transform_from_ntt`: `(const Ciphertext &a, Ciphertext &out)`,
`e.transform_from_ntt(a, out)`. -/
def EvaluatorMethods.py_transform_from_ntt (e : EvaluatorMethods) (h : Store) (a out : Ref) :
    Except Error Unit × Store :=
  write_back h out (e.transform_from_ntt h a out)

/-- Frame condition of a binding call, whether it returns or raises: every
object other than `out` has the value it had before the call. -/
def untouched_except (h : Store) (r : Except Error Unit × Store) (out : Ref) : Prop :=
  ∀ x, x ≠ out → r.2 x = h x

/-- The Python names under which `bind_evaluator.cpp` binds the methods of
`Evaluator` (lines 13-82), in source order. -/
def evaluator_bound_names : List String :=
  ["add", "add_inplace", "add_many", "add_plain", "add_plain_out",
   "sub", "sub_inplace", "sub_plain", "sub_plain_out",
   "negate", "negate_inplace",
   "multiply", "multiply_inplace", "multiply_many", "multiply_plain", "multiply_plain_out",
   "square", "square_inplace",
   "relinearize", "relinearize_inplace",
   "exponentiate", "exponentiate_inplace",
   "mod_switch_to_next", "mod_switch_to_next_inplace", "mod_switch_to", "mod_switch_to_inplace",
   "mod_switch_to_next_plain_inplace", "mod_switch_to_plain_inplace",
   "rescale_to_next", "rescale_to",
   "rotate_rows", "rotate_rows_inplace", "rotate_columns", "rotate_columns_inplace",
   "rotate_vector", "rotate_vector_inplace", "apply_galois", "apply_galois_inplace",
   "complex_conjugate", "complex_conjugate_inplace",
   "multiply_plain_inplace", "add_plain_inplace", "sub_plain_inplace",
   "transform_to_ntt_inplace", "transform_from_ntt_inplace",
   "transform_to_ntt", "transform_from_ntt", "transform_to_ntt_plain_inplace"]

/-- Whether a name ends in `_inplace`. -/
def ends_in_inplace (name : String) : Bool :=
  name.data.reverse.take 8 == "_inplace".data.reverse

/-- An engine method of the evaluator model as a method over the Python
objects: it assigns the result of the core to `target`, and changes nothing
when the core fails. -/
def Written.of_result (h : Store) (target : Ref) (r : Except Error Ciphertext) : Written :=
  match r with
  | .ok v => (.ok (), v)
  | .error err => (.error err, h target)

/-- The outcome of a binding call as the error raised or the objects
afterwards. -/
def to_result (r : Except Error Unit × Store) : Except Error Store :=
  match r.1 with
  | .ok _ => .ok r.2
  | .error err => .error err

/-- What a lambda that passes `target` by non-const reference to an engine
method does, given what the method did (`w`): it raises what the method raised
or returns, `target` holds what the method left in it, and every other object
has the value it had before the call. -/
def only_writes (h : Store) (r : Except Error Unit × Store) (target : Ref) (w : Written) : Prop :=
  r.1 = w.1 ∧ r.2 target = w.2 ∧ untouched_except h r target

/-- The methods of the evaluator model as engine methods over the Python
objects.  The model has no core for `add_many` and `multiply_many`, which stay
parameters. -/
def Evaluator.methods (e : Evaluator) (add_many : Store → List Ciphertext → Ref → Written)
    (multiply_many : Store → List Ciphertext → RelinKeys → Ref → Written) : EvaluatorMethods :=
  { add := fun h a b out => Written.of_result h out (e.kernel.add (h a) (h b))
    add_many := add_many
    add_plain_inplace := fun h a b => Written.of_result h a (e.kernel.add_plain (h a) b)
    add_plain := fun h a b out => Written.of_result h out (e.kernel.add_plain (h a) b)
    sub := fun h a b out => Written.of_result h out (e.kernel.sub (h a) (h b))
    sub_plain_inplace := fun h a b => Written.of_result h a (e.kernel.sub_plain (h a) b)
    sub_plain := fun h a b out => Written.of_result h out (e.kernel.sub_plain (h a) b)
    negate := fun h a out => Written.of_result h out (e.kernel.negate (h a))
    multiply := fun h a b out => Written.of_result h out (e.kernel.multiply (h a) (h b))
    multiply_many := multiply_many
    multiply_plain_inplace := fun h a b =>
      Written.of_result h a (e.kernel.multiply_plain (h a) b)
    multiply_plain := fun h a b out => Written.of_result h out (e.kernel.multiply_plain (h a) b)
    square := fun h a out => Written.of_result h out (e.kernel.square (h a))
    relinearize := fun h a rk out => Written.of_result h out (e.kernel.relinearize (h a) rk)
    exponentiate := fun h a exponent rk out =>
      Written.of_result h out (e.kernel.exponentiate (h a) exponent rk)
    mod_switch_to_next := fun h a out => Written.of_result h out (e.mod_switch_to_next_core (h a))
    mod_switch_to := fun h a p out => Written.of_result h out (e.mod_switch_to_core (h a) p)
    rescale_to_next_inplace := fun h a => Written.of_result h a (e.rescale_to_next_core (h a))
    rescale_to_inplace := fun h a p => Written.of_result h a (e.rescale_to_core (h a) p)
    rotate_rows := fun h a steps gk out =>
      Written.of_result h out (e.kernel.rotate_rows (h a) steps gk)
    rotate_columns := fun h a gk out => Written.of_result h out (e.kernel.rotate_columns (h a) gk)
    rotate_vector := fun h a steps gk out =>
      Written.of_result h out (e.kernel.rotate_vector (h a) steps gk)
    apply_galois := fun h a galois_elt gk out =>
      Written.of_result h out (e.kernel.apply_galois (h a) galois_elt gk)
    complex_conjugate := fun h a gk out =>
      Written.of_result h out (e.kernel.complex_conjugate (h a) gk)
    transform_to_ntt := fun h a out => Written.of_result h out (e.kernel.transform_to_ntt (h a))
    transform_from_ntt := fun h a out =>
      Written.of_result h out (e.kernel.transform_from_ntt (h a)) }

/-! # Theorems -/

/-- Every fingerprint has 32 bytes in memory. -/
theorem parms_id_data_length (le : Bool) (id : parms_id_type) :
    (id.data le).length = 32 := by
  cases le <;> simp [parms_id_type.data, parms_id_type.words, uint64_bytes]

/-- The shared accessor lambda returns the first four bytes of the memory
image of the fingerprint. -/
theorem parms_id_to_bytes_eq (le : Bool) (id : parms_id_type) :
    parms_id_to_bytes le id = (uint64_bytes le id.w0).take 4 := by
  cases le <;>
    simp [parms_id_to_bytes, py_bytes, parms_id_type.data, parms_id_type.words,
      parms_id_type.size, uint64_bytes, List.take_append_eq_append_take]

/-- C1 (code defect): every `parms_id` accessor of the bindings (Ciphertext,
Plaintext, EncryptionParameters, ContextData, and the three SEALContext
accessors) passes `id.size()`, the element count 4, as the byte count, so on
either byte order it returns 4 bytes, never the 32 bytes of the fingerprint.
At the fingerprint with words `0x0807060504030201, 2, 3, 4` on a little-endian
machine a Ciphertext's accessor returns the bytes `1, 2, 3, 4`: words 1 to 3
and the upper half of word 0 are lost. -/
theorem C1_parms_id_accessors_return_four_bytes :
    (∀ (le : Bool) (ct : Ciphertext) (pt : Plaintext) (p : EncryptionParameters)
        (cd : ContextData) (ctx : SEALContext),
        (ct.py_parms_id le).length = 4 ∧ (pt.py_parms_id le).length = 4
          ∧ (p.py_parms_id le).length = 4 ∧ (cd.py_parms_id le).length = 4
          ∧ (ctx.py_key_parms_id le).length = 4 ∧ (ctx.py_first_parms_id le).length = 4
          ∧ (ctx.py_last_parms_id le).length = 4
          ∧ (parms_id_full_bytes le ct.parms_id).length = 32)
      ∧ Ciphertext.py_parms_id true
          { parms_id := ⟨0x0807060504030201, 2, 3, 4⟩, is_ntt_form := false, size := 2,
            poly_modulus_degree := 4, coeff_modulus_size := 1, scale := double_one,
            correction_factor := 1, data := [] } = [1, 2, 3, 4] := by
  refine ⟨fun le ct pt p cd ctx => ?_, ?_⟩
  · have key : ∀ id : parms_id_type, (parms_id_to_bytes le id).length = 4 := by
      intro id
      rw [parms_id_to_bytes_eq]
      cases le <;> simp [uint64_bytes]
    exact ⟨key _, key _, key _, key _, key _, key _, key _, parms_id_data_length le _⟩
  · rw [Ciphertext.py_parms_id, parms_id_to_bytes_eq]
    decide

/-! ## Evaluator: the Python objects and the methods that overwrite an operand -/

/-- Reading back the object that was just assigned. -/
theorem Store.write_same (h : Store) (r : Ref) (v : Ciphertext) : (h.write r v) r = v := by
  simp [Store.write]

/-- Objects other than the assigned one keep their value. -/
theorem Store.write_other (h : Store) (r x : Ref) (v : Ciphertext) (hx : x ≠ r) :
    (h.write r v) x = h x := by
  simp [Store.write, hx]

/-- After an engine call with explicit destination, the destination holds the
result of the core algorithm, and the call fails exactly when the core does. -/
theorem value_after_run_into (h : Store) (res : Except Error Ciphertext) (out : Ref) :
    value_after (run_into h res out) out = res := by
  cases res <;> simp [run_into, value_after, Store.write_same]

/-- The example context satisfies the context invariant. -/
theorem example_context_wf : example_context.wf := by
  decide

/-- C3 (as stated, refuted): `rescale_to_next(a)`, a method whose name does
not end in `_inplace`, succeeds on the example ciphertext and leaves `a` at
the lowest level: `a` is not unchanged.  And `mod_switch_to_next(a, out)`
called with the object `a` as `out` too succeeds and leaves that object at the
lowest level: an input is left untouched only when it is not the destination. -/
theorem C3_counterexample :
    (∃ h1 : Store,
      example_evaluator.py_rescale_to_next (fun _ => example_ciphertext) 0 = .ok h1
        ∧ (h1 0).parms_id = ⟨1, 0, 0, 0⟩
        ∧ h1 0 ≠ (fun _ => example_ciphertext : Store) 0)
    ∧ (∃ h2 : Store,
      example_evaluator.py_mod_switch_to_next (fun _ => example_ciphertext) 0 0 = .ok h2
        ∧ (h2 0).parms_id = ⟨1, 0, 0, 0⟩
        ∧ h2 0 ≠ (fun _ => example_ciphertext : Store) 0) := by
  constructor
  · refine ⟨Store.write (fun _ => example_ciphertext) 0
      { example_ciphertext with parms_id := ⟨1, 0, 0, 0⟩, coeff_modulus_size := 1, scale := double_one },
      ?_, ?_, ?_⟩
    · simp [Evaluator.py_rescale_to_next, Evaluator.rescale_to_next_inplace,
        Evaluator.rescale_to_next, Evaluator.rescale_to_next_core, example_evaluator,
        example_context, SEALContext.chain, levels_from, ContextData.parms_id, example_parms,
        Evaluator.rescale_step, example_kernel, example_ciphertext, run_into]
    · simp [Store.write]
    · intro hEq
      have := congrArg Ciphertext.parms_id hEq
      simp [Store.write, example_ciphertext] at this
  · refine ⟨Store.write (fun _ => example_ciphertext) 0
      { example_ciphertext with parms_id := ⟨1, 0, 0, 0⟩, coeff_modulus_size := 1 },
      ?_, ?_, ?_⟩
    · simp [Evaluator.py_mod_switch_to_next, Evaluator.mod_switch_to_next,
        Evaluator.mod_switch_to_next_core, example_evaluator,
        example_context, SEALContext.chain, levels_from, ContextData.parms_id, example_parms,
        Evaluator.switch_step, example_kernel, example_ciphertext, run_into]
    · simp [Store.write]
    · intro hEq
      have := congrArg Ciphertext.parms_id hEq
      simp [Store.write, example_ciphertext] at this

/-- An engine call with explicit destination changes no object but the
destination. -/
theorem unchanged_except_run_into (h : Store) (res : Except Error Ciphertext) (out : Ref) :
    unchanged_except h (run_into h res out) out := by
  cases res with
  | error err => simp [run_into, unchanged_except]
  | ok v =>
    intro x hx
    exact Store.write_other h out x v hx

/-! ## Levels -/

/-- The chain part found by `levels_from` is a suffix of the chain and starts
at the first level with the fingerprint looked for. -/
theorem levels_from_spec (l : List ContextData) (p : parms_id_type) (cur : ContextData)
    (below : List ContextData) (hl : levels_from l p = some (cur, below)) :
    (cur :: below) <:+ l ∧ cur.parms_id = p ∧ l.find? (fun cd => cd.parms_id = p) = some cur := by
  induction l with
  | nil => simp [levels_from] at hl
  | cons x xs ih =>
    unfold levels_from at hl
    by_cases hx : x.parms_id = p
    · simp only [hx, if_true, Option.some.injEq, Prod.mk.injEq] at hl
      obtain ⟨rfl, rfl⟩ := hl
      exact ⟨List.suffix_refl _, hx, by simp [List.find?, hx]⟩
    · simp only [hx, if_false] at hl
      obtain ⟨h1, h2, h3⟩ := ih hl
      exact ⟨h1.trans (List.suffix_cons x xs), h2, by simp [List.find?, hx, h3]⟩

/-- Descending chain indices pass to suffixes. -/
theorem chain_indices_descend_suffix (l s : List ContextData) (hs : s <:+ l)
    (hl : chain_indices_descend l = true) : chain_indices_descend s = true := by
  induction l with
  | nil => simp_all
  | cons x xs ih =>
    rcases List.suffix_cons_iff.mp hs with rfl | h
    · exact hl
    · simp only [chain_indices_descend, Bool.and_eq_true] at hl
      exact ih h hl.2

/-- In a list without repeated fingerprints, looking a member up by its
fingerprint finds that member. -/
theorem find_of_nodup (l : List ContextData) (x : ContextData) (hx : x ∈ l)
    (hn : (l.map ContextData.parms_id).Nodup) :
    l.find? (fun cd => cd.parms_id = x.parms_id) = some x := by
  induction l with
  | nil => simp at hx
  | cons y ys ih =>
    simp only [List.map_cons, List.nodup_cons, List.mem_map, not_exists, not_and] at hn
    rcases List.mem_cons.mp hx with rfl | hmem
    · simp [List.find?]
    · have hne : y.parms_id ≠ x.parms_id := fun hEq => hn.1 x hmem hEq.symm
      simp [List.find?, hne, ih hmem hn.2]

/-- A level that heads a suffix of a well-formed chain is found by its
fingerprint, and its chain index counts the levels below it. -/
theorem position_of_suffix (ctx : SEALContext) (hwf : ctx.wf) (x : ContextData)
    (xs : List ContextData) (hs : (x :: xs) <:+ ctx.chain) (c : Ciphertext)
    (hc : c.parms_id = x.parms_id) : ctx.chain_position c = some xs.length := by
  have hmem : x ∈ ctx.chain := hs.subset (List.mem_cons_self x xs)
  have hd := chain_indices_descend_suffix _ _ hs hwf.2.1
  simp only [chain_indices_descend, Bool.and_eq_true, beq_iff_eq] at hd
  simp [SEALContext.chain_position, SEALContext.get_context_data, hc,
    find_of_nodup _ x hmem hwf.1, hd.1]

/-- A result located at a level of the part of the chain that starts at the
operand's level is not above the operand. -/
theorem level_not_raised_of_suffix (ctx : SEALContext) (hwf : ctx.wf) (cur x : ContextData)
    (below xs : List ContextData) (a r : Ciphertext) (hs : (cur :: below) <:+ ctx.chain)
    (ha : a.parms_id = cur.parms_id) (hx : (x :: xs) <:+ (cur :: below))
    (hr : r.parms_id = x.parms_id) : level_not_raised ctx a (.ok r) := by
  refine ⟨below.length, xs.length, position_of_suffix ctx hwf cur below hs a ha,
    position_of_suffix ctx hwf x xs (hx.trans hs) r hr, ?_⟩
  have := hx.length_le
  simp only [List.length_cons] at this
  omega

/-- Switching down ends at a level of the chain part it walks. -/
theorem switch_down_lands (e : Evaluator) (target : parms_id_type) (below : List ContextData) :
    ∀ (cur : ContextData) (a r : Ciphertext), a.parms_id = cur.parms_id →
      e.switch_down target cur below a = .ok r →
      ∃ x xs, (x :: xs) <:+ (cur :: below) ∧ r.parms_id = x.parms_id := by
  induction below with
  | nil =>
    intro cur a r ha hr
    unfold Evaluator.switch_down at hr
    by_cases ht : cur.parms_id = target
    · simp only [ht, if_true, Except.ok.injEq] at hr
      exact ⟨cur, [], List.suffix_refl _, hr ▸ ha⟩
    · simp [ht] at hr
  | cons next rest ih =>
    intro cur a r ha hr
    unfold Evaluator.switch_down at hr
    by_cases ht : cur.parms_id = target
    · simp only [ht, if_true, Except.ok.injEq] at hr
      exact ⟨cur, next :: rest, List.suffix_refl _, hr ▸ ha⟩
    · simp only [ht, if_false] at hr
      obtain ⟨x, xs, hx, hxr⟩ := ih next (e.switch_step cur next a) r rfl hr
      exact ⟨x, xs, hx.trans (List.suffix_cons cur _), hxr⟩

/-- A successful rescaling step puts the ciphertext at the next level. -/
theorem rescale_step_parms_id (e : Evaluator) (cur next : ContextData) (a a1 : Ciphertext)
    (h1 : e.rescale_step cur next a = .ok a1) : a1.parms_id = next.parms_id := by
  simp only [Evaluator.rescale_step] at h1
  split at h1
  · simp only [Except.ok.injEq] at h1
    rw [← h1]
  · simp at h1

/-- Rescaling down ends at a level of the chain part it walks. -/
theorem rescale_down_lands (e : Evaluator) (target : parms_id_type) (below : List ContextData) :
    ∀ (cur : ContextData) (a r : Ciphertext), a.parms_id = cur.parms_id →
      e.rescale_down target cur below a = .ok r →
      ∃ x xs, (x :: xs) <:+ (cur :: below) ∧ r.parms_id = x.parms_id := by
  induction below with
  | nil =>
    intro cur a r ha hr
    unfold Evaluator.rescale_down at hr
    by_cases ht : cur.parms_id = target
    · simp only [ht, if_true, Except.ok.injEq] at hr
      exact ⟨cur, [], List.suffix_refl _, hr ▸ ha⟩
    · simp [ht] at hr
  | cons next rest ih =>
    intro cur a r ha hr
    unfold Evaluator.rescale_down at hr
    by_cases ht : cur.parms_id = target
    · simp only [ht, if_true, Except.ok.injEq] at hr
      exact ⟨cur, next :: rest, List.suffix_refl _, hr ▸ ha⟩
    · simp only [ht, if_false] at hr
      cases hstep : e.rescale_step cur next a with
      | error err => simp [hstep] at hr
      | ok a1 =>
        simp only [hstep] at hr
        obtain ⟨x, xs, hx, hxr⟩ :=
          ih next a1 r (rescale_step_parms_id e cur next a a1 hstep) hr
        exact ⟨x, xs, hx.trans (List.suffix_cons cur _), hxr⟩

/-- None of the four level-changing cores raises the level. -/
theorem apply_level_op_not_raised (e : Evaluator) (hwf : e.context.wf) (op : LevelOp)
    (a : Ciphertext) : level_not_raised e.context a (e.apply_level_op op a) := by
  cases hres : e.apply_level_op op a with
  | error err => trivial
  | ok r =>
    cases hl : levels_from e.context.chain a.parms_id with
    | none =>
      cases op <;>
        simp [Evaluator.apply_level_op, Evaluator.mod_switch_to_next_core,
          Evaluator.mod_switch_to_core, Evaluator.rescale_to_next_core,
          Evaluator.rescale_to_core, hl] at hres
    | some found =>
      obtain ⟨cur, below⟩ := found
      obtain ⟨hs, hp, -⟩ := levels_from_spec _ _ _ _ hl
      have ha : a.parms_id = cur.parms_id := hp.symm
      cases op with
      | mod_switch_to_next =>
        cases below with
        | nil => simp [Evaluator.apply_level_op, Evaluator.mod_switch_to_next_core, hl] at hres
        | cons next rest =>
          simp only [Evaluator.apply_level_op, Evaluator.mod_switch_to_next_core, hl,
            Except.ok.injEq] at hres
          exact level_not_raised_of_suffix _ hwf cur next _ rest a r hs ha
            (List.suffix_cons cur _) (by rw [← hres]; rfl)
      | mod_switch_to target =>
        simp only [Evaluator.apply_level_op, Evaluator.mod_switch_to_core, hl] at hres
        obtain ⟨x, xs, hx, hxr⟩ := switch_down_lands e target below cur a r ha hres
        exact level_not_raised_of_suffix _ hwf cur x below xs a r hs ha hx hxr
      | rescale_to_next =>
        cases below with
        | nil => simp [Evaluator.apply_level_op, Evaluator.rescale_to_next_core, hl] at hres
        | cons next rest =>
          simp only [Evaluator.apply_level_op, Evaluator.rescale_to_next_core, hl] at hres
          by_cases hck : cur.parms.scheme = scheme_type.ckks
          · simp only [hck, if_true] at hres
            exact level_not_raised_of_suffix _ hwf cur next _ rest a r hs ha
              (List.suffix_cons cur _) (rescale_step_parms_id e cur next a r hres)
          · simp [hck] at hres
      | rescale_to target =>
        simp only [Evaluator.apply_level_op, Evaluator.rescale_to_core, hl] at hres
        by_cases hck : cur.parms.scheme = scheme_type.ckks
        · simp only [hck, if_true] at hres
          obtain ⟨x, xs, hx, hxr⟩ := rescale_down_lands e target below cur a r ha hres
          exact level_not_raised_of_suffix _ hwf cur x below xs a r hs ha hx hxr
        · simp [hck] at hres

/-- No sequence of level-changing cores raises the level. -/
theorem apply_level_ops_not_raised (e : Evaluator) (hwf : e.context.wf) (ops : List LevelOp) :
    ∀ c : Ciphertext, (∃ i, e.context.chain_position c = some i) →
      level_not_raised e.context c (e.apply_level_ops ops c) := by
  induction ops with
  | nil =>
    intro c hc
    obtain ⟨i, hi⟩ := hc
    exact ⟨i, i, hi, hi, le_refl i⟩
  | cons op ops ih =>
    intro c _
    have hstep := apply_level_op_not_raised e hwf op c
    unfold Evaluator.apply_level_ops
    cases h1 : e.apply_level_op op c with
    | error err => trivial
    | ok a1 =>
      rw [h1] at hstep
      obtain ⟨i, j, hi, hj, hji⟩ := hstep
      have hrest := ih a1 ⟨j, hj⟩
      simp only []
      cases h2 : e.apply_level_ops ops a1 with
      | error err => trivial
      | ok r =>
        rw [h2] at hrest
        obtain ⟨j1, k, hj1, hk, hkj⟩ := hrest
        rw [hj] at hj1
        cases hj1
        exact ⟨i, k, hi, hk, le_trans hkj hji⟩

/-- C9: level monotonicity.  On a context that satisfies the chain invariant,
whenever `mod_switch_to_next`, `mod_switch_to` (either form), `rescale_to_next`
or `rescale_to` succeeds on a ciphertext, the operand and the result are both
on the chain and the chain index of the level named by the result's `parms_id`
is at most that of the operand's; the same holds from the first operand to
the last result of any sequence of these operations on a ciphertext of the
chain. -/
theorem C9_level_monotonicity (e : Evaluator) (hwf : e.context.wf) (h : Store) (a out : Ref)
    (p : parms_id_type) (ops : List LevelOp) (c : Ciphertext)
    (hc : (e.context.chain_position c).isSome = true) :
    level_not_raised e.context (h a) (value_after (e.py_mod_switch_to_next h a out) out)
    ∧ level_not_raised e.context (h a) (value_after (e.py_mod_switch_to_next_inplace h a) a)
    ∧ level_not_raised e.context (h a) (value_after (e.py_mod_switch_to h a p out) out)
    ∧ level_not_raised e.context (h a) (value_after (e.py_mod_switch_to_inplace h a p) a)
    ∧ level_not_raised e.context (h a) (value_after (e.py_rescale_to_next h a) a)
    ∧ level_not_raised e.context (h a) (value_after (e.py_rescale_to h a p) a)
    ∧ level_not_raised e.context c (e.apply_level_ops ops c) := by
  simp only [Evaluator.py_mod_switch_to_next, Evaluator.py_mod_switch_to_next_inplace,
    Evaluator.py_mod_switch_to, Evaluator.py_mod_switch_to_inplace,
    Evaluator.py_rescale_to_next, Evaluator.py_rescale_to,
    Evaluator.mod_switch_to_next_inplace, Evaluator.mod_switch_to_inplace,
    Evaluator.rescale_to_next_inplace, Evaluator.rescale_to_inplace,
    Evaluator.mod_switch_to_next, Evaluator.mod_switch_to, Evaluator.rescale_to_next,
    Evaluator.rescale_to, value_after_run_into]
  exact ⟨apply_level_op_not_raised e hwf .mod_switch_to_next (h a),
    apply_level_op_not_raised e hwf .mod_switch_to_next (h a),
    apply_level_op_not_raised e hwf (.mod_switch_to p) (h a),
    apply_level_op_not_raised e hwf (.mod_switch_to p) (h a),
    apply_level_op_not_raised e hwf .rescale_to_next (h a),
    apply_level_op_not_raised e hwf (.rescale_to p) (h a),
    apply_level_ops_not_raised e hwf ops c (Option.isSome_iff_exists.mp hc)⟩

/-- The example ciphertext is at chain position 1 of the example context. -/
theorem example_ciphertext_position :
    example_context.chain_position example_ciphertext = some 1 := by
  decide

/-- C9 at the example context (three levels): the example ciphertext, at
chain index 1, is switched to its own level and then rescaled; the result is
at the lowest level, chain index 0. -/
theorem C9_level_monotonicity_witness :
    example_evaluator.context.wf
    ∧ example_evaluator.apply_level_ops [.mod_switch_to ⟨2, 0, 0, 0⟩, .rescale_to_next]
        example_ciphertext
      = .ok { example_ciphertext with parms_id := ⟨1, 0, 0, 0⟩, coeff_modulus_size := 1,
                                      scale := double_one }
    ∧ level_not_raised example_evaluator.context example_ciphertext
        (example_evaluator.apply_level_ops [.mod_switch_to ⟨2, 0, 0, 0⟩, .rescale_to_next]
          example_ciphertext) :=
  ⟨example_context_wf,
    by rfl,
    (C9_level_monotonicity example_evaluator example_context_wf (fun _ => example_ciphertext)
      0 1 ⟨1, 0, 0, 0⟩ [.mod_switch_to ⟨2, 0, 0, 0⟩, .rescale_to_next] example_ciphertext
      (by rw [show example_evaluator.context = example_context from rfl,
            example_ciphertext_position]; rfl)).2.2.2.2.2.2⟩

/-- In a list without repeated fingerprints, the part of the chain that
starts at its last level is that level alone. -/
theorem levels_from_last (l : List ContextData) (x : ContextData)
    (hn : ((l ++ [x]).map ContextData.parms_id).Nodup) :
    levels_from (l ++ [x]) x.parms_id = some (x, []) := by
  induction l with
  | nil => simp [levels_from]
  | cons y ys ih =>
    simp only [List.cons_append, List.map_cons, List.nodup_cons, List.mem_map, not_exists,
      not_and] at hn
    have hne : y.parms_id ≠ x.parms_id := fun hEq => hn.1 x (by simp) hEq.symm
    simp only [List.cons_append, levels_from, hne, if_false]
    exact ih hn.2

/-- On a well-formed context nothing lies below the level named by
`last_parms_id`. -/
theorem levels_from_last_parms_id (ctx : SEALContext) (hwf : ctx.wf) :
    levels_from ctx.chain ctx.last_parms_id = some (ctx.last_context_data, []) := by
  have hne : ctx.chain ≠ [] := by simp [SEALContext.chain]
  have hlast : ctx.last_context_data = ctx.chain.getLast hne := by
    simp [SEALContext.last_context_data, SEALContext.chain, List.getLastD_eq_getLast?,
      List.getLast?_eq_getLast]
  have hsplit := List.dropLast_append_getLast hne
  have hn := hwf.1
  rw [← hsplit] at hn
  have := levels_from_last _ _ hn
  rw [hsplit] at this
  rw [SEALContext.last_parms_id, hlast]
  exact this

/-- C10: on a context that satisfies the chain invariant, for every ciphertext
whose `parms_id` is the context's `last_parms_id`, `mod_switch_to_next` and
`mod_switch_to_next_inplace` fail with the end-of-modulus-chain error: no
ciphertext is produced. -/
theorem C10_mod_switch_at_last_level_fails (e : Evaluator) (hwf : e.context.wf) (h : Store)
    (a out : Ref) (hlast : (h a).parms_id = e.context.last_parms_id) :
    e.py_mod_switch_to_next h a out = .error .EndOfModulusChain
    ∧ e.py_mod_switch_to_next_inplace h a = .error .EndOfModulusChain := by
  have hcore : e.mod_switch_to_next_core (h a) = .error .EndOfModulusChain := by
    simp [Evaluator.mod_switch_to_next_core, hlast, levels_from_last_parms_id e.context hwf]
  simp [Evaluator.py_mod_switch_to_next, Evaluator.py_mod_switch_to_next_inplace,
    Evaluator.mod_switch_to_next_inplace, Evaluator.mod_switch_to_next, hcore, run_into]

/-- C10 at the example context: a ciphertext at the lowest level (fingerprint
word 1) cannot be switched further. -/
theorem C10_mod_switch_at_last_level_fails_witness :
    example_evaluator.context.wf
    ∧ example_evaluator.context.last_parms_id = ⟨1, 0, 0, 0⟩
    ∧ example_evaluator.py_mod_switch_to_next
        (fun _ => { example_ciphertext with parms_id := ⟨1, 0, 0, 0⟩ }) 0 1
      = .error .EndOfModulusChain
    ∧ example_evaluator.py_mod_switch_to_next_inplace
        (fun _ => { example_ciphertext with parms_id := ⟨1, 0, 0, 0⟩ }) 0
      = .error .EndOfModulusChain :=
  ⟨example_context_wf, by decide,
    C10_mod_switch_at_last_level_fails example_evaluator example_context_wf
      (fun _ => { example_ciphertext with parms_id := ⟨1, 0, 0, 0⟩ }) 0 1 (by decide)⟩

/-! ## Batch encoder: the transforms are inverse to each other -/

/-- An element of order `2n` has no even power below `2n` equal to one. -/
theorem pow_two_mul_ne_one {K : Type} [Field K] (w : K) (n d : ℕ)
    (hord : orderOf w = 2 * n) (hd0 : 0 < d) (hdn : d < n) : w ^ (2 * d) ≠ 1 := by
  intro h1
  have hdvd := orderOf_dvd_of_pow_eq_one h1
  rw [hord] at hdvd
  have := Nat.le_of_dvd (by omega) hdvd
  omega

/-- Orthogonality of the evaluation points: the sum over `k` of
`w ^ ((2j+1) k) * w ^ (-(2i+1) k)` is `n` when `i = j` and zero otherwise. -/
theorem geom_orthogonality {K : Type} [Field K] (w : K) (n : ℕ) (hn : 0 < n)
    (hord : orderOf w = 2 * n) (i j : ℕ) (hi : i < n) (hj : j < n) :
    ∑ k in Finset.range n, w ^ ((2 * j + 1) * k) * w⁻¹ ^ ((2 * i + 1) * k)
      = if i = j then (n : K) else 0 := by
  have hw1 : w ^ (2 * n) = 1 := by rw [← hord]; exact pow_orderOf_eq_one w
  have hw0 : w ≠ 0 := by
    intro h0
    rw [h0, zero_pow (by omega)] at hw1
    exact zero_ne_one hw1
  have hterm : ∀ k, w ^ ((2 * j + 1) * k) * w⁻¹ ^ ((2 * i + 1) * k)
      = (w ^ (2 * j + 1) * w⁻¹ ^ (2 * i + 1)) ^ k := by
    intro k
    rw [mul_pow, ← pow_mul, ← pow_mul]
  simp only [hterm]
  by_cases hij : i = j
  · subst hij
    have h1 : w ^ (2 * i + 1) * w⁻¹ ^ (2 * i + 1) = 1 := by
      rw [← mul_pow, mul_inv_cancel₀ hw0, one_pow]
    rw [h1]
    simp
  · simp only [hij, if_false]
    set z := w ^ (2 * j + 1) * w⁻¹ ^ (2 * i + 1) with hz
    have hzn : z ^ n = 1 := by
      have a1 : ∀ m : ℕ, w ^ ((2 * m + 1) * n) = (w ^ (2 * n)) ^ m * w ^ n := by
        intro m
        rw [← pow_mul, ← pow_add]
        congr 1
        ring
      rw [hz, mul_pow, ← pow_mul, ← pow_mul, inv_pow, a1, a1, hw1, one_pow, one_pow, one_mul]
      exact mul_inv_cancel₀ (pow_ne_zero n hw0)
    have hz1 : z ≠ 1 := by
      intro h1
      have hEq : w ^ (2 * j + 1) = w ^ (2 * i + 1) := by
        have h2 := congrArg (fun x => x * w ^ (2 * i + 1)) h1
        simp only [hz, one_mul, mul_assoc] at h2
        rw [← mul_pow, inv_mul_cancel₀ hw0, one_pow, mul_one] at h2
        exact h2
      rcases Nat.lt_or_gt_of_ne hij with hlt | hgt
      · have e : 2 * j + 1 = (2 * i + 1) + 2 * (j - i) := by omega
        have h3 : w ^ (2 * (j - i)) = 1 :=
          mul_left_cancel₀ (pow_ne_zero (2 * i + 1) hw0)
            (by rw [← pow_add, ← e, mul_one, hEq])
        exact pow_two_mul_ne_one w n (j - i) hord (by omega) (by omega) h3
      · have e : 2 * i + 1 = (2 * j + 1) + 2 * (i - j) := by omega
        have h3 : w ^ (2 * (i - j)) = 1 :=
          mul_left_cancel₀ (pow_ne_zero (2 * j + 1) hw0)
            (by rw [← pow_add, ← e, mul_one, hEq])
        exact pow_two_mul_ne_one w n (i - j) hord (by omega) (by omega) h3
    rw [geom_sum_eq hz1, hzn, sub_self, zero_div]

/-- The list sum of the model is the finite sum of algebra. -/
theorem sum_upto_eq_finset (n : Nat) (f : Nat → Nat) :
    sum_upto n f = ∑ k in Finset.range n, f k := by
  induction n with
  | zero => simp [sum_upto]
  | succ m ih =>
    unfold sum_upto at ih ⊢
    rw [List.range_succ, List.map_append, List.sum_append, ih, Finset.sum_range_succ]
    simp

/-- Reading entry `k` of a list tabulated over `0 .. n - 1`. -/
theorem getD_map_range (n k : Nat) (f : Nat → Nat) (hk : k < n) :
    ((List.range n).map f).getD k 0 = f k := by
  simp [List.getD_eq_getElem?_getD, List.getElem?_map, List.getElem?_range hk]

/-- A power of two is positive. -/
theorem exists_pow_of_is_power_of_two (n : Nat) (h : is_power_of_two n = true) :
    ∃ k, 2 ^ k = n := by
  simp only [is_power_of_two, List.any_eq_true, beq_iff_eq] at h
  obtain ⟨k, -, hk⟩ := h
  exact ⟨k, hk⟩

/-- The slot count of a well-formed encoder is positive. -/
theorem BatchEncoder.slots_pos (enc : BatchEncoder) (hwf : enc.wf) : 0 < enc.slots := by
  obtain ⟨k, hk⟩ := exists_pow_of_is_power_of_two _ hwf.1
  rw [← hk]
  exact Nat.pos_pow_of_pos k (by norm_num)

/-- The root of a well-formed encoder has order `2n` in the field `Z_t`. -/
theorem BatchEncoder.root_order (enc : BatchEncoder) (hwf : enc.wf) :
    orderOf (enc.root : ZMod enc.plain_modulus) = 2 * enc.slots := by
  obtain ⟨hpow, hprime, h2, -, hroot, -⟩ := hwf
  haveI : Fact (Nat.Prime enc.plain_modulus) := ⟨hprime⟩
  haveI : Fact (2 < enc.plain_modulus) := ⟨h2⟩
  obtain ⟨k, hk⟩ := exists_pow_of_is_power_of_two _ hpow
  have hneg : (enc.root : ZMod enc.plain_modulus) ^ enc.slots = -1 := by
    have h1 : ((enc.root ^ enc.slots % enc.plain_modulus : ℕ) : ZMod enc.plain_modulus)
        = ((enc.plain_modulus - 1 : ℕ) : ZMod enc.plain_modulus) := by rw [hroot]
    rw [ZMod.natCast_mod, Nat.cast_pow, Nat.cast_sub (by omega), ZMod.natCast_self] at h1
    simpa using h1
  rw [← hk] at hneg ⊢
  have h1 : ¬ (enc.root : ZMod enc.plain_modulus) ^ 2 ^ k = 1 := by
    rw [hneg]
    exact ZMod.neg_one_ne_one
  have h2 : (enc.root : ZMod enc.plain_modulus) ^ 2 ^ (k + 1) = 1 := by
    rw [pow_succ, pow_mul, hneg]
    norm_num
  rw [orderOf_eq_prime_pow h1 h2, pow_succ, mul_comm]

/-- The model's inverse root is the inverse of the root in `Z_t`. -/
theorem BatchEncoder.inv_root_cast (enc : BatchEncoder) (hwf : enc.wf) :
    ((enc.inv_root : ℕ) : ZMod enc.plain_modulus) = (enc.root : ZMod enc.plain_modulus)⁻¹ := by
  have hord := enc.root_order hwf
  have hpos := enc.slots_pos hwf
  haveI : Fact (Nat.Prime enc.plain_modulus) := ⟨hwf.2.1⟩
  have h1 : (enc.root : ZMod enc.plain_modulus) ^ (2 * enc.slots) = 1 := by
    rw [← hord]; exact pow_orderOf_eq_one _
  rw [BatchEncoder.inv_root, ZMod.natCast_mod, Nat.cast_pow]
  apply eq_inv_of_mul_eq_one_left
  rw [← pow_succ]
  have : 2 * enc.slots - 1 + 1 = 2 * enc.slots := by omega
  rw [this, h1]

/-- The slot count is invertible in `Z_t`. -/
theorem BatchEncoder.slots_ne_zero (enc : BatchEncoder) (hwf : enc.wf) :
    (enc.slots : ZMod enc.plain_modulus) ≠ 0 := by
  have hpos := enc.slots_pos hwf
  obtain ⟨-, hprime, h2, hmod, -⟩ := hwf
  intro h0
  rw [ZMod.natCast_zmod_eq_zero_iff_dvd] at h0
  have hle := Nat.le_of_dvd hpos h0
  have hlt : enc.plain_modulus < 2 * enc.slots := by omega
  rw [Nat.mod_eq_of_lt hlt] at hmod
  omega

/-- The model's inverse of the slot count is its inverse in `Z_t`. -/
theorem BatchEncoder.inv_slots_cast (enc : BatchEncoder) (hwf : enc.wf) :
    ((enc.inv_slots : ℕ) : ZMod enc.plain_modulus) = (enc.slots : ZMod enc.plain_modulus)⁻¹ := by
  have hne := enc.slots_ne_zero hwf
  obtain ⟨-, hprime, h2, -⟩ := hwf
  haveI : Fact (Nat.Prime enc.plain_modulus) := ⟨hprime⟩
  rw [BatchEncoder.inv_slots, ZMod.natCast_mod, Nat.cast_pow]
  apply eq_inv_of_mul_eq_one_left
  rw [← pow_succ]
  have : enc.plain_modulus - 2 + 1 = enc.plain_modulus - 1 := by omega
  rw [this]
  exact ZMod.pow_card_sub_one_eq_one hne

/-- The forward transform undoes the inverse transform, entry by entry, in
`Z_t`. -/
theorem BatchEncoder.ntt_roundtrip_cast (enc : BatchEncoder) (hwf : enc.wf) (y : List Nat)
    (j : Nat) (hj : j < enc.slots) :
    ((sum_upto enc.slots (fun k => (enc.ntt_inverse y).getD k 0 * enc.root ^ ((2 * j + 1) * k))
        : ℕ) : ZMod enc.plain_modulus) = ((y.getD j 0 : ℕ) : ZMod enc.plain_modulus) := by
  have hord := enc.root_order hwf
  have hpos := enc.slots_pos hwf
  have hne := enc.slots_ne_zero hwf
  have hir := enc.inv_root_cast hwf
  have his := enc.inv_slots_cast hwf
  haveI : Fact (Nat.Prime enc.plain_modulus) := ⟨hwf.2.1⟩
  rw [sum_upto_eq_finset, Nat.cast_sum]
  have hterm : ∀ k ∈ Finset.range enc.slots,
      (((enc.ntt_inverse y).getD k 0 * enc.root ^ ((2 * j + 1) * k) : ℕ)
          : ZMod enc.plain_modulus)
        = ∑ i in Finset.range enc.slots,
            (enc.slots : ZMod enc.plain_modulus)⁻¹ * (y.getD i 0 : ZMod enc.plain_modulus)
              * ((enc.root : ZMod enc.plain_modulus) ^ ((2 * j + 1) * k)
                  * (enc.root : ZMod enc.plain_modulus)⁻¹ ^ ((2 * i + 1) * k)) := by
    intro k hk
    rw [BatchEncoder.ntt_inverse, getD_map_range _ _ _ (Finset.mem_range.mp hk),
      Nat.cast_mul, ZMod.natCast_mod, Nat.cast_mul, sum_upto_eq_finset, Nat.cast_sum, his,
      Nat.cast_pow, Finset.mul_sum, Finset.sum_mul]
    apply Finset.sum_congr rfl
    intro i _
    rw [Nat.cast_mul, Nat.cast_pow, hir]
    ring
  rw [Finset.sum_congr rfl hterm, Finset.sum_comm]
  have hinner : ∀ i ∈ Finset.range enc.slots,
      ∑ k in Finset.range enc.slots,
          (enc.slots : ZMod enc.plain_modulus)⁻¹ * (y.getD i 0 : ZMod enc.plain_modulus)
            * ((enc.root : ZMod enc.plain_modulus) ^ ((2 * j + 1) * k)
                * (enc.root : ZMod enc.plain_modulus)⁻¹ ^ ((2 * i + 1) * k))
        = if i = j then (y.getD i 0 : ZMod enc.plain_modulus) else 0 := by
    intro i hi
    rw [← Finset.mul_sum, geom_orthogonality _ enc.slots hpos hord i j (Finset.mem_range.mp hi) hj]
    by_cases hij : i = j
    · simp only [hij, if_true]
      rw [mul_comm _ (y.getD j 0 : ZMod enc.plain_modulus), mul_assoc, inv_mul_cancel₀ hne,
        mul_one]
    · simp [hij]
  rw [Finset.sum_congr rfl hinner, Finset.sum_ite_eq' (Finset.range enc.slots) j]
  simp [hj]

/-- The forward transform undoes the inverse transform on every vector of `n`
residues. -/
theorem BatchEncoder.ntt_roundtrip (enc : BatchEncoder) (hwf : enc.wf) (y : List Nat)
    (hlen : y.length = enc.slots) (hlt : ∀ x ∈ y, x < enc.plain_modulus) :
    enc.ntt_forward (enc.ntt_inverse y) = y := by
  have hpos : 0 < enc.plain_modulus := by have := hwf.2.2.1; omega
  apply List.ext_getElem
  · simp [BatchEncoder.ntt_forward, hlen]
  · intro j h1 h2
    have hj : j < enc.slots := by rw [← hlen]; exact h2
    simp only [BatchEncoder.ntt_forward, List.getElem_map, List.getElem_range]
    have hcast := enc.ntt_roundtrip_cast hwf y j hj
    rw [ZMod.natCast_eq_natCast_iff'] at hcast
    rw [hcast, List.getD_eq_getElem _ _ h2]
    exact Nat.mod_eq_of_lt (hlt _ (List.getElem_mem h2))

/-- A list read at every index below `n`, with zero past its end, is the list
padded with zeros to length `n`. -/
theorem tabulate_getD_eq_pad (v : List Nat) (n : Nat) (hlen : v.length ≤ n) :
    (List.range n).map (fun i => v.getD i 0) = v ++ List.replicate (n - v.length) 0 := by
  apply List.ext_getElem
  · simp; omega
  · intro i h1 h2
    simp only [List.getElem_map, List.getElem_range]
    by_cases hi : i < v.length
    · rw [List.getElem_append_left hi, List.getD_eq_getElem _ _ hi]
    · rw [List.getElem_append_right (by omega), List.getElem_replicate,
        List.getD_eq_default _ _ (by omega)]

/-- Reading the slots back from their positions returns the slot values,
padded with zeros to the slot count. -/
theorem BatchEncoder.gather_scatter (enc : BatchEncoder) (hwf : enc.wf) (v : List Nat)
    (hlen : v.length ≤ enc.slots) :
    enc.gather (enc.scatter v) = v ++ List.replicate (enc.slots - v.length) 0 := by
  obtain ⟨-, -, -, -, -, hnd, hmlen, hrange⟩ := hwf
  rw [← tabulate_getD_eq_pad v enc.slots hlen]
  apply List.ext_getElem
  · simp [BatchEncoder.gather, hmlen]
  · intro i h1 h2
    have hi : i < enc.index_map.length := by simpa [BatchEncoder.gather] using h1
    have hpos : enc.index_map[i] < enc.slots := hrange _ (List.getElem_mem hi)
    simp only [BatchEncoder.gather, BatchEncoder.scatter, List.getElem_map, List.getElem_range]
    rw [getD_map_range _ _ _ hpos, List.indexOf_getElem hnd i hi]

/-- Entries of a scattered vector are entries of the input or zero. -/
theorem BatchEncoder.scatter_lt (enc : BatchEncoder) (hwf : enc.wf) (v : List Nat)
    (hv : ∀ x ∈ v, x < enc.plain_modulus) : ∀ x ∈ enc.scatter v, x < enc.plain_modulus := by
  have hpos : 0 < enc.plain_modulus := by have := hwf.2.2.1; omega
  intro x hx
  simp only [BatchEncoder.scatter, List.mem_map, List.mem_range] at hx
  obtain ⟨pos, -, rfl⟩ := hx
  by_cases hi : enc.index_map.indexOf pos < v.length
  · rw [List.getD_eq_getElem _ _ hi]
    exact hv _ (List.getElem_mem hi)
  · rw [List.getD_eq_default _ _ (by omega)]
    exact hpos

/-- Decoding an encoded vector of residues gives the vector padded with
zeros to the slot count. -/
theorem BatchEncoder.decode_encode (enc : BatchEncoder) (hwf : enc.wf) (v : List Nat)
    (plain : Plaintext) (hlen : v.length ≤ enc.slots) (hv : ∀ x ∈ v, x < enc.plain_modulus) :
    (enc.encode v plain).bind enc.decode
      = .ok (v ++ List.replicate (enc.slots - v.length) 0) := by
  have h1 : ¬ v.length > enc.slots := by omega
  have h2 : v.any (fun x => decide (enc.plain_modulus ≤ x)) = false := by
    rw [List.any_eq_false]
    intro x hx
    have := hv x hx
    simp only [decide_eq_true_eq]
    omega
  have hround := enc.ntt_roundtrip hwf (enc.scatter v) (by simp [BatchEncoder.scatter])
    (enc.scatter_lt hwf v hv)
  simp only [BatchEncoder.encode, h1, h2, if_false, Except.bind, BatchEncoder.decode]
  have h3 : ¬ (enc.ntt_inverse (enc.scatter v)).length > enc.slots := by
    simp [BatchEncoder.ntt_inverse]
  simp [h3, hround, enc.gather_scatter hwf v hlen]

/-- The plain modulus of a well-formed encoder is odd. -/
theorem BatchEncoder.plain_modulus_odd (enc : BatchEncoder) (hwf : enc.wf) :
    enc.plain_modulus % 2 = 1 := by
  obtain ⟨-, hprime, h2, -⟩ := hwf
  rcases Nat.Prime.eq_two_or_odd hprime with h | h
  · omega
  · exact h

/-- The residue of a signed value in range is below `t`. -/
theorem BatchEncoder.signed_residue_lt (enc : BatchEncoder) (hwf : enc.wf) (x : Int)
    (hx : x.natAbs ≤ enc.plain_modulus / 2) : enc.signed_residue x < enc.plain_modulus := by
  have h2 := hwf.2.2.1
  unfold BatchEncoder.signed_residue
  split <;> omega

/-- The signed value of the residue of a signed value in range is that
value. -/
theorem BatchEncoder.signed_value_residue (enc : BatchEncoder) (hwf : enc.wf) (x : Int)
    (hx : x.natAbs ≤ enc.plain_modulus / 2) : enc.signed_value (enc.signed_residue x) = x := by
  have hodd := enc.plain_modulus_odd hwf
  unfold BatchEncoder.signed_value BatchEncoder.signed_residue
  split <;> split <;> omega

/-- Decoding an encoded vector of signed values gives the vector padded with
zeros to the slot count. -/
theorem BatchEncoder.decode_encode_signed (enc : BatchEncoder) (hwf : enc.wf) (sv : List Int)
    (plain : Plaintext) (hlen : sv.length ≤ enc.slots)
    (hsv : ∀ x ∈ sv, x.natAbs ≤ enc.plain_modulus / 2) :
    (enc.encode_signed sv plain).bind enc.decode_signed
      = .ok (sv ++ List.replicate (enc.slots - sv.length) 0) := by
  have h1 : ¬ sv.length > enc.slots := by omega
  have h2 : sv.any (fun x => decide (x.natAbs > enc.plain_modulus / 2)) = false := by
    rw [List.any_eq_false]
    intro x hx
    have := hsv x hx
    simp only [decide_eq_true_eq]
    omega
  have hres : ∀ r ∈ sv.map enc.signed_residue, r < enc.plain_modulus := by
    intro r hr
    obtain ⟨x, hx, rfl⟩ := List.mem_map.mp hr
    exact enc.signed_residue_lt hwf x (hsv x hx)
  have hdec := enc.decode_encode hwf (sv.map enc.signed_residue) plain (by simpa using hlen) hres
  have h0 : enc.signed_value 0 = 0 := by simp [BatchEncoder.signed_value]
  have hmap : (sv.map enc.signed_residue).map enc.signed_value = sv := by
    rw [List.map_map]
    conv_rhs => rw [← List.map_id sv]
    apply List.map_congr_left
    intro x hx
    exact enc.signed_value_residue hwf x (hsv x hx)
  have hany : (sv.map enc.signed_residue).any (fun x => decide (enc.plain_modulus ≤ x))
      = false := by
    rw [List.any_eq_false]
    intro r hr
    have := hres r hr
    simp only [decide_eq_true_eq]
    omega
  have henc : enc.encode (sv.map enc.signed_residue) plain = enc.encode_signed sv plain := by
    simp [BatchEncoder.encode, BatchEncoder.encode_signed, h1, h2, hany]
  rw [henc] at hdec
  cases hE : enc.encode_signed sv plain with
  | error err => rw [hE] at hdec; simp [Except.bind] at hdec
  | ok P =>
    rw [hE] at hdec
    simp only [Except.bind] at hdec ⊢
    simp only [BatchEncoder.decode_signed, hdec, List.map_append, hmap, List.map_replicate, h0,
      List.length_map]

/-- C4 (amended): for a well-formed batch encoder and every vector `v` of at
most `slot_count` unsigned integers below the plain modulus `t`,
`decode_uint64(encode_new(v))` succeeds and returns `v` followed by zeros up
to length `slot_count`; it is `v` exactly when `v` has `slot_count` entries.
Likewise `decode_int64` after the signed `encode` returns the signed vector
(entries of absolute value at most `t / 2`) padded with zeros to `slot_count`
entries. -/
theorem C4_batch_roundtrip_padded (enc : BatchEncoder) (hwf : enc.wf) (v : List Nat)
    (sv : List Int) (plain : Plaintext) (hlen : v.length ≤ enc.slot_count)
    (hv : ∀ x ∈ v, x < enc.plain_modulus) (hslen : sv.length ≤ enc.slot_count)
    (hsv : ∀ x ∈ sv, x.natAbs ≤ enc.plain_modulus / 2) :
    (enc.py_encode_new v).bind enc.py_decode_uint64
        = .ok (v ++ List.replicate (enc.slot_count - v.length) 0)
    ∧ (enc.py_encode_int64 sv plain).bind enc.py_decode_int64
        = .ok (sv ++ List.replicate (enc.slot_count - sv.length) 0)
    ∧ (v.length = enc.slot_count → (enc.py_encode_new v).bind enc.py_decode_uint64 = .ok v)
    ∧ (sv.length = enc.slot_count →
        (enc.py_encode_int64 sv plain).bind enc.py_decode_int64 = .ok sv) := by
  have hu := enc.decode_encode hwf v Plaintext.empty hlen hv
  have hs := enc.decode_encode_signed hwf sv plain hslen hsv
  refine ⟨hu, hs, fun hfull => ?_, fun hfull => ?_⟩
  · have := hu
    simp only [BatchEncoder.slot_count] at hfull
    rw [hfull, Nat.sub_self, List.replicate_zero, List.append_nil] at this
    exact this
  · have := hs
    simp only [BatchEncoder.slot_count] at hfull
    rw [hfull, Nat.sub_self, List.replicate_zero, List.append_nil] at this
    exact this

/-- The example encoder is well formed. -/
theorem example_encoder_wf : example_encoder.wf := by
  refine ⟨by decide, by norm_num [example_encoder], by decide, by decide, by decide, by decide,
    by decide, by decide⟩

/-- C4 at the example encoder (degree 4, `t = 17`): a full unsigned vector and
a full signed vector come back unchanged. -/
theorem C4_batch_roundtrip_padded_witness :
    example_encoder.wf
    ∧ (example_encoder.py_encode_new [1, 2, 3, 16]).bind example_encoder.py_decode_uint64
        = .ok [1, 2, 3, 16]
    ∧ (example_encoder.py_encode_int64 [1, -2, 3, -8] Plaintext.empty).bind
          example_encoder.py_decode_int64
        = .ok [1, -2, 3, -8] :=
  have h := C4_batch_roundtrip_padded example_encoder example_encoder_wf [1, 2, 3, 16]
    [1, -2, 3, -8] Plaintext.empty (by decide) (by decide) (by decide) (by decide)
  ⟨example_encoder_wf, h.2.2.1 (by decide), h.2.2.2 (by decide)⟩

/-- C4 (as stated, refuted): the vector `[1]` has at most `slot_count = 4`
entries, all below `t = 17`, and `decode_uint64(encode_new([1]))` is
`[1, 0, 0, 0]`, not `[1]`. -/
theorem C4_counterexample :
    example_encoder.wf
    ∧ [1].length ≤ example_encoder.slot_count
    ∧ (∀ x ∈ [1], x < example_encoder.plain_modulus)
    ∧ (example_encoder.py_encode_new [1]).bind example_encoder.py_decode_uint64
        = .ok [1, 0, 0, 0]
    ∧ (example_encoder.py_encode_new [1]).bind example_encoder.py_decode_uint64 ≠ .ok [1] := by
  have hrun : (example_encoder.py_encode_new [1]).bind example_encoder.py_decode_uint64
      = .ok [1, 0, 0, 0] := by
    rfl
  refine ⟨example_encoder_wf, by decide, by decide, hrun, ?_⟩
  rw [hrun]
  simp

/-! ## Random seeds -/

/-- Reading the word that was just assigned. -/
theorem SeedMemory.index_assign_same (m : SeedMemory) (i v : Nat) :
    (m.assign i v).index i = v := by
  simp [SeedMemory.assign, SeedMemory.index]

/-- Words other than the assigned one keep their value. -/
theorem SeedMemory.index_assign_other (m : SeedMemory) (i j v : Nat) (hj : j ≠ i) :
    (m.assign i v).index j = m.index j := by
  simp [SeedMemory.assign, SeedMemory.index, hj]

/-- C20 (code defect): `__len__` is 8 and, for an index below 8, `__getitem__`
after `__setitem__` returns the value written and the other words are
unchanged; but neither lambda checks the index.  For every index `i >= 8`,
`__getitem__(i)` succeeds and returns the word `i` places after the start of
the seed, outside it, and `__setitem__(i, v)` succeeds, leaves the seed as it
was and overwrites that word.  On the example memory `__getitem__(8)` returns
the word `0xDEAD` that lies behind the seed. -/
theorem C20_prng_seed_index_is_unchecked :
    (∀ (m : SeedMemory) (i v : Nat), v < 2 ^ 64 →
        prng_seed_len m = 8
        ∧ prng_seed_getitem (prng_seed_setitem m i v).2 i = .ok v
        ∧ (∀ j, j ≠ i → prng_seed_getitem (prng_seed_setitem m i v).2 j = prng_seed_getitem m j))
    ∧ (∀ (m : SeedMemory) (i v : Nat), 8 ≤ i → v < 2 ^ 64 →
        prng_seed_getitem m i = .ok (m i)
        ∧ (prng_seed_setitem m i v).1 = .ok ()
        ∧ (prng_seed_setitem m i v).2.seed = m.seed
        ∧ (prng_seed_setitem m i v).2 i = v)
    ∧ prng_seed_getitem example_seed_memory 8 = .ok 0xDEAD := by
  refine ⟨fun m i v hv => ⟨rfl, ?_, fun j hj => ?_⟩, fun m i v hi hv => ⟨rfl, rfl, ?_, ?_⟩, rfl⟩
  · simp only [prng_seed_getitem, prng_seed_setitem, SeedMemory.index_assign_same,
      Nat.mod_eq_of_lt hv]
  · simp [prng_seed_getitem, prng_seed_setitem, SeedMemory.index_assign_other _ _ _ _ hj]
  · simp only [SeedMemory.seed, prng_seed_setitem, prng_seed_uint64_count]
    apply List.map_congr_left
    intro j hj
    have hj8 : j < 8 := List.mem_range.mp hj
    have hne : j ≠ i := by omega
    simp [SeedMemory.assign, hne]
  · simp only [prng_seed_setitem, SeedMemory.assign, Nat.mod_eq_of_lt hv, if_true]

/-! ## Fingerprints as bytes: injectivity -/

/-- A 64-bit word has eight bytes in memory. -/
theorem uint64_bytes_length (le : Bool) (w : Nat) : (uint64_bytes le w).length = 8 := by
  cases le <;> simp [uint64_bytes]

/-- A 64-bit word is determined by its eight bytes, on either byte order. -/
theorem uint64_bytes_injective (le : Bool) (v w : Nat) (hv : v < 2 ^ 64) (hw : w < 2 ^ 64)
    (h : uint64_bytes le v = uint64_bytes le w) : v = w := by
  have hle : uint64_bytes true v = uint64_bytes true w := by
    cases le
    · simp only [uint64_bytes, Bool.false_eq_true, if_false] at h
      simpa [uint64_bytes] using congrArg List.reverse h
    · exact h
  simp [uint64_bytes, List.range, List.range.loop] at hle
  omega

/-- The 32 bytes of a fingerprint in memory determine the fingerprint. -/
theorem parms_id_full_bytes_injective (le : Bool) (p q : parms_id_type) (hp : p.wf) (hq : q.wf)
    (h : parms_id_full_bytes le p = parms_id_full_bytes le q) : p = q := by
  obtain ⟨p0, p1, p2, p3⟩ := p
  obtain ⟨q0, q1, q2, q3⟩ := q
  simp only [parms_id_type.wf] at hp hq
  simp only [parms_id_full_bytes, parms_id_type.data, parms_id_type.words, List.map_cons,
    List.map_nil, List.flatten_cons, List.flatten_nil, List.append_nil] at h
  have e0 := List.append_inj h (by simp [uint64_bytes_length])
  have e1 := List.append_inj e0.2 (by simp [uint64_bytes_length])
  have e2 := List.append_inj e1.2 (by simp [uint64_bytes_length])
  rw [uint64_bytes_injective le _ _ hp.1 hq.1 e0.1, uint64_bytes_injective le _ _ hp.2.1 hq.2.1 e1.1,
    uint64_bytes_injective le _ _ hp.2.2.1 hq.2.2.1 e2.1,
    uint64_bytes_injective le _ _ hp.2.2.2 hq.2.2.2 e2.2]

/-- On a little-endian machine the accessor lambda returns the same bytes for
two fingerprints exactly when the low 32 bits of their first words agree. -/
theorem parms_id_to_bytes_eq_iff (p q : parms_id_type) :
    parms_id_to_bytes true p = parms_id_to_bytes true q ↔ p.w0 % 2 ^ 32 = q.w0 % 2 ^ 32 := by
  rw [parms_id_to_bytes_eq, parms_id_to_bytes_eq]
  simp [uint64_bytes, List.range, List.range.loop]
  omega

/-- C22 (code defect, the one of C1): the conversion of the `parms_id`
accessors is not injective.  The lambda passes `id.size()`, the element count
4, as the byte count, so the bytes it returns depend on the first word of the
fingerprint only (on a little-endian machine, on its low 32 bits): the
well-formed fingerprints `0, 0, 0, 0` and `0, 1, 0, 0` are distinct and the
accessors of `Plaintext`, `Ciphertext`, `EncryptionParameters` and
`ContextData` return the same four bytes for both, on either byte order.  The
conversion of all 32 bytes, which the lambda misses, is injective on
fingerprints of 64-bit words. -/
theorem C22_parms_id_bytes_not_injective :
    (∀ (le : Bool) (p q : parms_id_type), p.w0 = q.w0 →
        parms_id_to_bytes le p = parms_id_to_bytes le q)
      ∧ (∀ p q : parms_id_type, p.w0 % 2 ^ 32 = q.w0 % 2 ^ 32 →
          parms_id_to_bytes true p = parms_id_to_bytes true q)
      ∧ (parms_id_zero ≠ (⟨0, 1, 0, 0⟩ : parms_id_type) ∧ parms_id_zero.wf
          ∧ (⟨0, 1, 0, 0⟩ : parms_id_type).wf
          ∧ ∀ le : Bool,
              Plaintext.py_parms_id le Plaintext.empty
                  = Plaintext.py_parms_id le { Plaintext.empty with parms_id := ⟨0, 1, 0, 0⟩ }
                ∧ Ciphertext.py_parms_id le { example_ciphertext with parms_id := parms_id_zero }
                  = Ciphertext.py_parms_id le { example_ciphertext with parms_id := ⟨0, 1, 0, 0⟩ }
                ∧ EncryptionParameters.py_parms_id le (example_parms [17] 0)
                  = EncryptionParameters.py_parms_id le
                      { example_parms [17] 0 with parms_id := ⟨0, 1, 0, 0⟩ }
                ∧ ContextData.py_parms_id le { parms := example_parms [17] 0, chain_index := 0 }
                  = ContextData.py_parms_id le
                      { parms := { example_parms [17] 0 with parms_id := ⟨0, 1, 0, 0⟩ },
                        chain_index := 0 }
                ∧ Plaintext.py_parms_id le Plaintext.empty = [0, 0, 0, 0])
      ∧ (∀ (le : Bool) (p q : parms_id_type), p.wf → q.wf →
          parms_id_full_bytes le p = parms_id_full_bytes le q → p = q) := by
  refine ⟨fun le p q h => ?_, fun p q h => (parms_id_to_bytes_eq_iff p q).2 h,
    ⟨by decide, by decide, by decide, fun le => ?_⟩,
    fun le p q hp hq h => parms_id_full_bytes_injective le p q hp hq h⟩
  · rw [parms_id_to_bytes_eq, parms_id_to_bytes_eq, h]
  · cases le <;> decide

/-! ## Evaluator: the plaintext methods and their in-place names -/

/-- C23: the bindings `add_plain`, `sub_plain` and `multiply_plain`
(`bind_evaluator.cpp` lines 16, 22, 33) are aliases of `add_plain_inplace`,
`sub_plain_inplace` and `multiply_plain_inplace` (lines 74, 75, 73): for every
evaluator, every state of the Python objects, every ciphertext object `a` and
every plaintext `b`, the two bindings of a pair call the same method of the
engine on the same arguments, so they raise the same error or leave the same
state of the objects (the same value of `a` in particular); all six lambdas
return `None`. -/
theorem C23_plain_methods_alias_inplace (e : Evaluator) (h : Store) (a : Ref) (b : Plaintext) :
    e.py_add_plain h a b = e.py_add_plain_inplace h a b
      ∧ e.py_sub_plain h a b = e.py_sub_plain_inplace h a b
      ∧ e.py_multiply_plain h a b = e.py_multiply_plain_inplace h a b
      ∧ value_after (e.py_add_plain h a b) a = value_after (e.py_add_plain_inplace h a b) a
      ∧ value_after (e.py_sub_plain h a b) a = value_after (e.py_sub_plain_inplace h a b) a
      ∧ value_after (e.py_multiply_plain h a b) a
          = value_after (e.py_multiply_plain_inplace h a b) a :=
  ⟨rfl, rfl, rfl, rfl, rfl, rfl⟩

/-! ## Encoders: `encode_new` -/

/-- C24: `BatchEncoder.encode_new(values)` returns the plaintext that
`BatchEncoder.encode(values, plain)` leaves in a default-constructed `plain`,
and raises exactly when that call raises; likewise
`CKKSEncoder.encode_new(values, scale)` against
`CKKSEncoder.encode(values, scale, plain)`, for real and for complex values and
for every behaviour of the engine's `encode`.  Each `encode_new` lambda
default-constructs a plaintext and makes the call that the `encode` lambda
makes on the caller's object; the two CKKS lambdas of a pair differ in the
line they write to standard output only. -/
theorem C24_encode_new_is_encode_into_fresh (enc : BatchEncoder) (values : List Nat)
    (ckks : CKKSEncoder) (reals : List Nat) (complexes : List (Nat × Nat)) (scale : Nat) :
    enc.py_encode_new values = enc.py_encode values Plaintext.empty
      ∧ (ckks.py_encode_new reals scale).2 = (ckks.py_encode reals scale Plaintext.empty).2
      ∧ (ckks.py_encode_new_complex complexes scale).2
          = (ckks.py_encode_complex complexes scale Plaintext.empty).2
      ∧ (raised (enc.py_encode_new values) = raised (enc.py_encode values Plaintext.empty)
          ∧ raised (ckks.py_encode_new reals scale).2
              = raised (ckks.py_encode reals scale Plaintext.empty).2
          ∧ raised (ckks.py_encode_new_complex complexes scale).2
              = raised (ckks.py_encode_complex complexes scale Plaintext.empty).2) :=
  ⟨rfl, rfl, rfl, rfl, rfl, rfl⟩

/-! ## Loading from a file that cannot be opened -/

/-- A file that can be opened is handed to the deserialiser, once. -/
theorem py_load_opened {T : Type}
    (engine_load : T → SEALContext → List Nat → Except Error Unit × T) (fs : FileSystem)
    (self : T) (context : SEALContext) (path : String) (content : List Nat)
    (h : fs.files path = some content) :
    (py_load engine_load fs self context path).deserialised = [content] := by
  simp [py_load, h]

/-- C25: `load` is atomic on a file that cannot be opened.  For the lambdas
bound to a context (`Ciphertext.load`, `Plaintext.load`) and for those that
are not (`Modulus.load`, `EncryptionParameters.load`,
`UniformRandomGeneratorInfo.load`), whatever the deserialiser of the engine
does: when the file at `path` cannot be opened for reading the call raises a
runtime error, the deserialiser is not invoked, and `self` keeps the value it
had. -/
theorem C25_load_unopenable_is_atomic {T : Type}
    (engine_load : T → SEALContext → List Nat → Except Error Unit × T)
    (engine_load_free : T → List Nat → Except Error Unit × T)
    (fs : FileSystem) (self : T) (context : SEALContext) (path : String)
    (hclosed : fs.files path = none) :
    (py_load engine_load fs self context path).result = .error .RuntimeError
      ∧ (py_load engine_load fs self context path).deserialised = []
      ∧ (py_load engine_load fs self context path).self = self
      ∧ (py_load_free engine_load_free fs self path).result = .error .RuntimeError
      ∧ (py_load_free engine_load_free fs self path).deserialised = []
      ∧ (py_load_free engine_load_free fs self path).self = self := by
  unfold py_load py_load_free
  rw [hclosed]
  exact ⟨rfl, rfl, rfl, rfl, rfl, rfl⟩

/-- C25 at the example file system, where no file `"missing.bin"` can be
opened, for a plaintext and deserialisers that would overwrite it. -/
theorem C25_load_unopenable_is_atomic_witness :
    example_fs.files "missing.bin" = none
      ∧ (py_load (fun s _ b => overwriting_load s b) example_fs example_plaintext
            example_context "missing.bin").result = .error .RuntimeError
      ∧ (py_load (fun s _ b => overwriting_load s b) example_fs example_plaintext
            example_context "missing.bin").deserialised = []
      ∧ (py_load (fun s _ b => overwriting_load s b) example_fs example_plaintext
            example_context "missing.bin").self = example_plaintext
      ∧ (py_load_free overwriting_load example_fs example_plaintext "missing.bin").result
          = .error .RuntimeError
      ∧ (py_load_free overwriting_load example_fs example_plaintext "missing.bin").deserialised
          = []
      ∧ (py_load_free overwriting_load example_fs example_plaintext "missing.bin").self
          = example_plaintext :=
  ⟨by decide,
    C25_load_unopenable_is_atomic (fun s _ b => overwriting_load s b) overwriting_load example_fs
      example_plaintext example_context "missing.bin" (by decide)⟩

/-! ## The two save paths -/

/-- The outcomes of the method and of the module-level function differ
exactly when the path can be opened and the engine's `save` returns with the
stream not good: the method raises, the function returns. -/
theorem py_save_result_ne_iff (obj_save : EngineSave) (fs : FileSystem) (path : String) :
    (py_save obj_save fs path).1 ≠ (module_save obj_save fs path).1
      ↔ fs.writable path = true ∧ (obj_save (fs.put path []) path).1 = .ok false := by
  unfold py_save module_save
  by_cases hw : fs.writable path = false
  · simp [hw]
  · simp only [hw, if_false]
    have hw1 : fs.writable path = true := by simpa using hw
    rcases h : obj_save (fs.put path []) path with ⟨r, fs1⟩
    cases r with
    | error err => simp [hw1]
    | ok good => cases good <;> simp [hw1]

/-- The registrations of a list of statements split at its head. -/
theorem provided_cons (r : Registration) (rs : List Registration) :
    provided (r :: rs) = provided [r] ++ provided rs :=
  List.filterMap_append [r] rs Registration.provides

/-- The check `registered_before_use` is sound: when it succeeds, every
statement finds each type it needs among the types registered beforehand or by
a statement that runs before it. -/
theorem registered_before_use_sound (rs : List Registration) :
    ∀ known, registered_before_use known rs = true →
      ∀ pre r post, rs = pre ++ r :: post → ∀ t ∈ r.needs, t ∈ known ++ provided pre := by
  induction rs with
  | nil => intro known _ pre r post h; simp at h
  | cons x rest ih =>
    intro known h pre r post hsplit t ht
    simp only [registered_before_use, Bool.and_eq_true, List.all_eq_true, decide_eq_true_eq] at h
    cases pre with
    | nil =>
      simp only [List.nil_append, List.cons.injEq] at hsplit
      obtain ⟨rfl, _⟩ := hsplit
      simpa [provided] using h.1 t ht
    | cons y pre1 =>
      simp only [List.cons_append, List.cons.injEq] at hsplit
      obtain ⟨rfl, hrest⟩ := hsplit
      have hmem := ih _ h.2 pre1 r post hrest t ht
      rw [provided_cons, ← List.append_assoc]
      exact hmem

/-- C27: module initialisation registers every Python class name at most
once.  Of the binding functions under `src/core`, `bind_encoder` and
`bind_batchencoder` are the two that define a class named `BatchEncoder`;
the body of `PYBIND11_MODULE` does not invoke `bind_encoder` and invokes
`bind_batchencoder` once.  Every statement of the initialisation finds the
types it needs (the enum of a default argument, the base class of a class)
registered by a statement that runs before it; the types needed are
`sec_level_type` and `scheme_type` as default arguments and
`UniformRandomGeneratorFactory` as a base class. -/
theorem C27_module_init_registers_each_class_once :
    (class_names module_init).Nodup
      ∧ (∀ b : Binding, "BatchEncoder" ∈ class_names b.registrations
          ↔ (b = Binding.bind_encoder ∨ b = Binding.bind_batchencoder))
      ∧ (invoked module_body).count Binding.bind_encoder = 0
      ∧ (invoked module_body).count Binding.bind_batchencoder = 1
      ∧ (∀ pre r post, module_init = pre ++ r :: post → ∀ t ∈ r.needs, t ∈ provided pre)
      ∧ (module_init.map Registration.needs).flatten
          = ["sec_level_type", "sec_level_type", "scheme_type", "sec_level_type",
             "UniformRandomGeneratorFactory", "UniformRandomGeneratorFactory"] := by
  refine ⟨by decide, fun b => by cases b <;> decide, by decide, by decide, ?_, by decide⟩
  intro pre r post hsplit t ht
  have hcheck : registered_before_use [] module_init = true := by decide
  simpa using registered_before_use_sound module_init [] hcheck pre r post hsplit t ht

/-! ## Evaluator: the methods that are not named `_inplace` -/

/-- A lambda that passes `target` by non-const reference leaves every other
object as it was, whatever the engine method does. -/
theorem untouched_except_write_back (h : Store) (target : Ref) (w : Written) :
    untouched_except h (write_back h target w) target :=
  fun x hx => Store.write_other h target x w.2 hx

/-- After a lambda passed `target` by non-const reference, `target` holds what
the engine method left in it. -/
theorem write_back_target (h : Store) (target : Ref) (w : Written) :
    (write_back h target w).2 target = w.2 :=
  Store.write_same h target w.2

/-- The engine methods of the evaluator model are engine methods over the
Python objects. -/
theorem run_into_eq_write_back (h : Store) (r : Except Error Ciphertext) (out : Ref) :
    run_into h r out = to_result (write_back h out (Written.of_result h out r)) := by
  cases r <;> rfl

/-- A lambda that passes `target` by non-const reference does what the engine
method did to `target`, and nothing else. -/
theorem only_writes_write_back (h : Store) (target : Ref) (w : Written) :
    only_writes h (write_back h target w) target w :=
  ⟨rfl, write_back_target h target w, untouched_except_write_back h target w⟩

/-- The bindings of the evaluator model are the lambdas over an arbitrary
engine at the methods of the model. -/
theorem Evaluator.py_eq_methods (e : Evaluator)
    (add_many : Store → List Ciphertext → Ref → Written)
    (multiply_many : Store → List Ciphertext → RelinKeys → Ref → Written)
    (h : Store) (a b out : Ref) (pt : Plaintext) (rk : RelinKeys) (gk : GaloisKeys)
    (exponent galois_elt : Nat) (steps : Int) (p : parms_id_type) :
    e.py_add h a b out = to_result ((e.methods add_many multiply_many).py_add h a b out)
    ∧ e.py_add_plain h a pt = to_result ((e.methods add_many multiply_many).py_add_plain h a pt)
    ∧ e.py_add_plain_out h a pt out
        = to_result ((e.methods add_many multiply_many).py_add_plain_out h a pt out)
    ∧ e.py_sub h a b out = to_result ((e.methods add_many multiply_many).py_sub h a b out)
    ∧ e.py_sub_plain h a pt = to_result ((e.methods add_many multiply_many).py_sub_plain h a pt)
    ∧ e.py_sub_plain_out h a pt out
        = to_result ((e.methods add_many multiply_many).py_sub_plain_out h a pt out)
    ∧ e.py_negate h a out = to_result ((e.methods add_many multiply_many).py_negate h a out)
    ∧ e.py_multiply h a b out
        = to_result ((e.methods add_many multiply_many).py_multiply h a b out)
    ∧ e.py_multiply_plain h a pt
        = to_result ((e.methods add_many multiply_many).py_multiply_plain h a pt)
    ∧ e.py_multiply_plain_out h a pt out
        = to_result ((e.methods add_many multiply_many).py_multiply_plain_out h a pt out)
    ∧ e.py_square h a out = to_result ((e.methods add_many multiply_many).py_square h a out)
    ∧ e.py_relinearize h a rk out
        = to_result ((e.methods add_many multiply_many).py_relinearize h a rk out)
    ∧ e.py_exponentiate h a exponent rk out
        = to_result ((e.methods add_many multiply_many).py_exponentiate h a exponent rk out)
    ∧ e.py_mod_switch_to_next h a out
        = to_result ((e.methods add_many multiply_many).py_mod_switch_to_next h a out)
    ∧ e.py_mod_switch_to h a p out
        = to_result ((e.methods add_many multiply_many).py_mod_switch_to h a p out)
    ∧ e.py_rescale_to_next h a
        = to_result ((e.methods add_many multiply_many).py_rescale_to_next h a)
    ∧ e.py_rescale_to h a p
        = to_result ((e.methods add_many multiply_many).py_rescale_to h a p)
    ∧ e.py_rotate_rows h a steps gk out
        = to_result ((e.methods add_many multiply_many).py_rotate_rows h a steps gk out)
    ∧ e.py_rotate_columns h a gk out
        = to_result ((e.methods add_many multiply_many).py_rotate_columns h a gk out)
    ∧ e.py_rotate_vector h a steps gk out
        = to_result ((e.methods add_many multiply_many).py_rotate_vector h a steps gk out)
    ∧ e.py_apply_galois h a galois_elt gk out
        = to_result ((e.methods add_many multiply_many).py_apply_galois h a galois_elt gk out)
    ∧ e.py_complex_conjugate h a gk out
        = to_result ((e.methods add_many multiply_many).py_complex_conjugate h a gk out)
    ∧ e.py_transform_to_ntt h a out
        = to_result ((e.methods add_many multiply_many).py_transform_to_ntt h a out)
    ∧ e.py_transform_from_ntt h a out
        = to_result ((e.methods add_many multiply_many).py_transform_from_ntt h a out) := by
  refine ⟨?_, ?_, ?_, ?_, ?_, ?_, ?_, ?_, ?_, ?_, ?_, ?_, ?_, ?_, ?_, ?_, ?_, ?_, ?_, ?_, ?_, ?_,
    ?_, ?_⟩ <;> exact run_into_eq_write_back _ _ _

/-- C3 (amended): of the 48 lambdas of `bind_evaluator.cpp`, 26 have a name
that does not end in `_inplace`.  Twenty-one of them (add, add_many,
add_plain_out, sub, sub_plain_out, negate, multiply, multiply_many,
multiply_plain_out, square, relinearize, exponentiate, mod_switch_to_next,
mod_switch_to, rotate_rows, rotate_columns, rotate_vector, apply_galois,
complex_conjugate, transform_to_ntt, transform_from_ntt) take their input
ciphertexts by const reference (a list: as copies) and a destination: whatever
the engine method does, returning or raising, the lambda raises what it raised,
the destination holds what it left there, and every Ciphertext object other
than the destination is untouched.  The other five, `add_plain(a, b)`,
`sub_plain(a, b)`, `multiply_plain(a, b)`, `rescale_to_next(a)` and
`rescale_to(a, parms_id)`, pass `a` by non-const reference to the engine's
in-place method: they raise when it raises, `a` holds afterwards what that
method left in it, and every other object is untouched; the first three are
the lambdas bound as `add_plain_inplace`, `sub_plain_inplace` and
`multiply_plain_inplace`. -/
theorem C3_methods_not_named_inplace (e : EvaluatorMethods) (h : Store) (a b out : Ref)
    (operands : List Ref) (pt : Plaintext) (rk : RelinKeys) (gk : GaloisKeys)
    (exponent galois_elt : Nat) (steps : Int) (p : parms_id_type) :
    evaluator_bound_names.filter (fun name => !ends_in_inplace name)
        = ["add", "add_many", "add_plain", "add_plain_out", "sub", "sub_plain", "sub_plain_out",
           "negate", "multiply", "multiply_many", "multiply_plain", "multiply_plain_out",
           "square", "relinearize", "exponentiate", "mod_switch_to_next", "mod_switch_to",
           "rescale_to_next", "rescale_to", "rotate_rows", "rotate_columns", "rotate_vector",
           "apply_galois", "complex_conjugate", "transform_to_ntt", "transform_from_ntt"]
    ∧ (only_writes h (e.py_add h a b out) out (e.add h a b out)
      ∧ only_writes h (e.py_add_many h operands out) out (e.add_many h (operands.map h) out)
      ∧ only_writes h (e.py_add_plain_out h a pt out) out (e.add_plain h a pt out)
      ∧ only_writes h (e.py_sub h a b out) out (e.sub h a b out)
      ∧ only_writes h (e.py_sub_plain_out h a pt out) out (e.sub_plain h a pt out)
      ∧ only_writes h (e.py_negate h a out) out (e.negate h a out)
      ∧ only_writes h (e.py_multiply h a b out) out (e.multiply h a b out)
      ∧ only_writes h (e.py_multiply_many h operands rk out) out
          (e.multiply_many h (operands.map h) rk out)
      ∧ only_writes h (e.py_multiply_plain_out h a pt out) out (e.multiply_plain h a pt out)
      ∧ only_writes h (e.py_square h a out) out (e.square h a out)
      ∧ only_writes h (e.py_relinearize h a rk out) out (e.relinearize h a rk out)
      ∧ only_writes h (e.py_exponentiate h a exponent rk out) out
          (e.exponentiate h a exponent rk out)
      ∧ only_writes h (e.py_mod_switch_to_next h a out) out (e.mod_switch_to_next h a out)
      ∧ only_writes h (e.py_mod_switch_to h a p out) out (e.mod_switch_to h a p out)
      ∧ only_writes h (e.py_rotate_rows h a steps gk out) out (e.rotate_rows h a steps gk out)
      ∧ only_writes h (e.py_rotate_columns h a gk out) out (e.rotate_columns h a gk out)
      ∧ only_writes h (e.py_rotate_vector h a steps gk out) out
          (e.rotate_vector h a steps gk out)
      ∧ only_writes h (e.py_apply_galois h a galois_elt gk out) out
          (e.apply_galois h a galois_elt gk out)
      ∧ only_writes h (e.py_complex_conjugate h a gk out) out (e.complex_conjugate h a gk out)
      ∧ only_writes h (e.py_transform_to_ntt h a out) out (e.transform_to_ntt h a out)
      ∧ only_writes h (e.py_transform_from_ntt h a out) out (e.transform_from_ntt h a out))
    ∧ (only_writes h (e.py_add_plain h a pt) a (e.add_plain_inplace h a pt)
      ∧ only_writes h (e.py_sub_plain h a pt) a (e.sub_plain_inplace h a pt)
      ∧ only_writes h (e.py_multiply_plain h a pt) a (e.multiply_plain_inplace h a pt)
      ∧ only_writes h (e.py_rescale_to_next h a) a (e.rescale_to_next_inplace h a)
      ∧ only_writes h (e.py_rescale_to h a p) a (e.rescale_to_inplace h a p)
      ∧ e.py_add_plain h a pt = e.py_add_plain_inplace h a pt
      ∧ e.py_sub_plain h a pt = e.py_sub_plain_inplace h a pt
      ∧ e.py_multiply_plain h a pt = e.py_multiply_plain_inplace h a pt) := by
  refine ⟨by decide, ?_, ?_⟩
  · exact ⟨only_writes_write_back h out _, only_writes_write_back h out _,
      only_writes_write_back h out _, only_writes_write_back h out _,
      only_writes_write_back h out _, only_writes_write_back h out _,
      only_writes_write_back h out _, only_writes_write_back h out _,
      only_writes_write_back h out _, only_writes_write_back h out _,
      only_writes_write_back h out _, only_writes_write_back h out _,
      only_writes_write_back h out _, only_writes_write_back h out _,
      only_writes_write_back h out _, only_writes_write_back h out _,
      only_writes_write_back h out _, only_writes_write_back h out _,
      only_writes_write_back h out _, only_writes_write_back h out _,
      only_writes_write_back h out _⟩
  · exact ⟨only_writes_write_back h a _, only_writes_write_back h a _,
      only_writes_write_back h a _, only_writes_write_back h a _,
      only_writes_write_back h a _, rfl, rfl, rfl⟩

/-! ## Decryptor -/

/-- The lambda of `decrypt_new` makes the call of the lambda of `decrypt` on a
default-constructed plaintext. -/
theorem Decryptor.py_decrypt_new_eq (self : Decryptor) (encrypted : Ciphertext) :
    self.py_decrypt_new encrypted = self.py_decrypt encrypted Plaintext.empty :=
  rfl

end Seal
